import Mathlib

/-!
Verification development for the R2 Sequence Extractor.

The Python source is shallowly embedded: XML documents become explicit
structures, the regex grammars of `src/core/constants.py` and the extractors
become executable character-list matchers, and the imperative extraction /
reconstruction passes become folds.  Python code that can raise is embedded
with `Except`.  Theorems at the end settle the frozen claims.
-/

set_option autoImplicit false

namespace R2X

/-! ## Character and string utilities

Python string operations are re-implemented over `List Char` so that every
definition reduces in the kernel.  The single-quote character is written
`Char.ofNat 39` throughout.
-/

/-- The single-quote character `'` used by the `MOVE('...')` and
`EmSeqList[i].Name := '...'` grammars. -/
def sqc : Char := Char.ofNat 39

/-- Python `\s` (whitespace class) restricted to the characters that occur in
L5X text: space, tab, newline, carriage return, vertical tab, form feed. -/
def pyIsSpace (c : Char) : Bool :=
  c = ' ' || c = Char.ofNat 9 || c = Char.ofNat 10 || c = Char.ofNat 13 ||
  c = Char.ofNat 11 || c = Char.ofNat 12

/-- Python `\w` (word character class), ASCII range as used by the grammars. -/
def isWordChar (c : Char) : Bool :=
  c.isAlpha || c.isDigit || c = '_'

/-- ASCII lower-casing, as Python `str.lower()` on the ASCII text found in L5X
documents. -/
def lowerCh (c : Char) : Char :=
  if 65 ≤ c.toNat ∧ c.toNat ≤ 90 then Char.ofNat (c.toNat + 32) else c

/-- ASCII upper-casing, as Python `str.upper()` on ASCII text. -/
def upperCh (c : Char) : Char :=
  if 97 ≤ c.toNat ∧ c.toNat ≤ 122 then Char.ofNat (c.toNat - 32) else c

/-- Python `str.lower()`. -/
def lowerStr (s : String) : String := String.mk (s.toList.map lowerCh)

/-- Python `str.upper()`. -/
def upperStr (s : String) : String := String.mk (s.toList.map upperCh)

/-- Python `str.strip()`: drop leading and trailing whitespace. -/
def trimPy (s : String) : String :=
  String.mk (((s.toList.dropWhile pyIsSpace).reverse.dropWhile pyIsSpace).reverse)

/-- Python substring test `needle in hay` on character lists. -/
def strContainsL (hay needle : List Char) : Bool :=
  match hay with
  | [] => needle.isPrefixOf ([] : List Char)
  | c :: cs => needle.isPrefixOf (c :: cs) || strContainsL cs needle

/-- Python substring test `needle in hay`. -/
def strContains (hay needle : String) : Bool :=
  strContainsL hay.toList needle.toList

/-- Python `hay.endswith(needle)`. -/
def strEndsWith (hay needle : String) : Bool :=
  needle.toList.isSuffixOf hay.toList

/-- Text after the first occurrence of `sep` (caller guarantees containment);
embeds Python `s.split(sep, 1)[1]`. -/
def afterFirstL (sep : List Char) : List Char → List Char
  | [] => []
  | c :: cs =>
    if sep.isPrefixOf (c :: cs) then (c :: cs).drop sep.length
    else afterFirstL sep cs

/-- Text after the first occurrence of `sep` in `s`. -/
def afterFirst (s sep : String) : String :=
  String.mk (afterFirstL sep.toList s.toList)

/-- Python `str.replace(a, b)` for single-character `a`, `b` (the only use in
the source replaces underscore with hyphen). -/
def replaceCh (s : String) (a b : Char) : String :=
  String.mk (s.toList.map (fun c => if c = a then b else c))

/-- Python `s.split(sep)` for a single-character separator, as used for the
comma-splitting of AOI parameters and the underscore-splitting of routine
names. -/
def splitOnCh (sep : Char) (s : String) : List String :=
  (s.toList.foldr
    (fun c acc =>
      match acc with
      | [] => [[c]]
      | g :: gs => if c = sep then [] :: (g :: gs) else (c :: g) :: gs)
    [[]]).map String.mk

/-- Value of a nonempty digit string. -/
def digitsVal (l : List Char) : Nat :=
  l.foldl (fun n c => n * 10 + (c.toNat - 48)) 0

/-- Decimal digits of `n` (auxiliary, fuel-driven). -/
def natDigitsAux : Nat → Nat → List Char → List Char
  | 0, _, acc => acc
  | _ + 1, 0, acc => acc
  | fuel + 1, n, acc => natDigitsAux fuel (n / 10) (Char.ofNat (48 + n % 10) :: acc)

/-- Decimal rendering of a natural number, as Python `str(n)` / f-strings. -/
def natToStr (n : Nat) : String :=
  if n = 0 then "0" else String.mk (natDigitsAux (n + 1) n [])

/-! ## Match combinators

A matcher of type `List Char → Option (α × List Char)` attempts the pattern at
the head of its input and returns captured groups plus the unconsumed rest.
`searchO` embeds `re.search` (first position at which the pattern matches);
`findAll` embeds `re.finditer` (non-overlapping matches, resuming after each
match end).
-/

/-- Literal match: consume `lit` or fail. -/
def matchLit (lit : List Char) (s : List Char) : Option (List Char) :=
  if lit.isPrefixOf s then some (s.drop lit.length) else none

/-- One-or-more whitespace (`\s+`), maximal munch. -/
def dropWs1 (s : List Char) : Option (List Char) :=
  let p := s.span pyIsSpace
  if p.1.isEmpty then none else some p.2

/-- Zero-or-more whitespace (`\s*`), maximal munch. -/
def dropWs0 (s : List Char) : List Char :=
  (s.span pyIsSpace).2

/-- One-or-more digits (`(\d+)`), maximal munch, returning the value. -/
def matchDigits1 (s : List Char) : Option (Nat × List Char) :=
  let p := s.span Char.isDigit
  if p.1.isEmpty then none else some (digitsVal p.1, p.2)

/-- Embeds `re.search`: try the matcher at every position, leftmost success
wins (the groups are returned, the span is discarded). -/
def searchO {α : Type} (m : List Char → Option α) : List Char → Option α
  | [] => m []
  | c :: cs => (m (c :: cs)).orElse (fun _ => searchO m cs)

/-- Auxiliary loop for `findAll`, fuelled by the input length. -/
def findAllAux {α : Type} (m : List Char → Option (α × List Char)) :
    Nat → List Char → List α
  | 0, _ => []
  | _ + 1, [] => []
  | fuel + 1, c :: cs =>
    match m (c :: cs) with
    | some (a, rest) => a :: findAllAux m fuel rest
    | none => findAllAux m fuel cs

/-- Embeds `re.finditer`: all non-overlapping matches left to right, scanning
resumes at each match end (every grammar of the source consumes at least one
character, so the input-length fuel is never exhausted). -/
def findAll {α : Type} (m : List Char → Option (α × List Char)) (s : List Char) :
    List α :=
  findAllAux m s.length s

/-! ## Grammar matchers (src/core/constants.py and the extractors)

Each matcher embeds one regular expression of the source, with the greedy /
backtracking behaviour of the Python `re` engine worked out by hand where it
is observable.
-/

/-- Region-marker grammar `#region\s+<kw1>\s+...\s+(\d+)\s+-\s+(.+)` at the
current position, for the keyword lists `["Sequence"]` (pattern
`PATTERN_SEQUENCE_REGION`) and `["Transition", "State"]` (pattern
`PATTERN_TRANSITION_REGION`).  The final `\s+(.+)` pair backtracks: when only
whitespace remains, `(.+)` captures the last whitespace character provided
`\s+` still has at least one. -/
def matchAtRegion (kws : List String) (s : List Char) : Option (Nat × String) := do
  let s ← matchLit "#region".toList s
  let s ← kws.foldlM (fun s kw => do
    let s ← dropWs1 s
    matchLit kw.toList s) s
  let s ← dropWs1 s
  let (n, s) ← matchDigits1 s
  let s ← dropWs1 s
  let s ← matchLit ['-'] s
  let p := s.span pyIsSpace
  if p.1.isEmpty then none
  else if p.2.isEmpty then
    if 2 ≤ p.1.length then some (n, String.mk (p.1.drop (p.1.length - 1))) else none
  else some (n, String.mk p.2)

/-- Pattern `PATTERN_SEQUENCE_NAME`:
`EmSeqList\[(\d+)\]\.Name\s*:=\s*'([^']+)'` at the current position. -/
def matchAtSeqName (s : List Char) : Option (Nat × String) := do
  let s ← matchLit "EmSeqList[".toList s
  let (n, s) ← matchDigits1 s
  let s ← matchLit "].Name".toList s
  let s := dropWs0 s
  let s ← matchLit ":=".toList s
  let s := dropWs0 s
  let s ← matchLit [sqc] s
  let p := s.span (fun c => ¬ c = sqc)
  if p.1.isEmpty then none
  else do
    let _ ← matchLit [sqc] p.2
    some (n, String.mk p.1)

/-- Pattern `PATTERN_ACTION_ASSIGNMENT`:
`EmSeqList\[(\d+)\]\.Step\[(\d+)\]\.ActionNumber\[(\d+)\]\s*:=\s*(\w+)\.outActionNum`,
returning the three indices, the action name, and the rest for `finditer`. -/
def matchAtActionAssign (s : List Char) :
    Option ((Nat × Nat × Nat × String) × List Char) := do
  let s ← matchLit "EmSeqList[".toList s
  let (i, s) ← matchDigits1 s
  let s ← matchLit "].Step[".toList s
  let (j, s) ← matchDigits1 s
  let s ← matchLit "].ActionNumber[".toList s
  let (k, s) ← matchDigits1 s
  let s ← matchLit "]".toList s
  let s := dropWs0 s
  let s ← matchLit ":=".toList s
  let s := dropWs0 s
  let p := s.span isWordChar
  if p.1.isEmpty then none
  else do
    let rest ← matchLit ".outActionNum".toList p.2
    some ((i, j, k, String.mk p.1), rest)

/-- Pattern `PATTERN_ACTION_NAME`: `Action(MM\d+)(\w+)` under `re.match`
(anchored at the start, end unanchored).  When nothing follows the digit run,
or a non-word character follows it, the greedy `\d+` backtracks one digit so
that `(\w+)` can capture it. -/
def parse_action_name (name : String) : Option (String × String) :=
  match matchLit "ActionMM".toList name.toList with
  | none => none
  | some t =>
    let p := t.span Char.isDigit
    if p.1.isEmpty then none
    else
      match p.2 with
      | [] =>
        if 2 ≤ p.1.length then
          some (String.mk ('M' :: 'M' :: p.1.dropLast),
                String.mk (p.1.drop (p.1.length - 1)))
        else none
      | c :: r =>
        if isWordChar c then
          some (String.mk ('M' :: 'M' :: p.1), String.mk (c :: r.takeWhile isWordChar))
        else if 2 ≤ p.1.length then
          some (String.mk ('M' :: 'M' :: p.1.dropLast),
                String.mk (p.1.drop (p.1.length - 1)))
        else none

/-- Pattern `PATTERN_TRANSITION_PERMISSION`:
`EmTransitionStates\[(\d+)\]\.AutoStartPerms\.(\d+)\s*:=\s*([^;]+);\s*(?://(.*))?`,
returning (transition index, permission index, raw value, optional comment)
and the rest for `finditer`. -/
def matchAtTransPerm (s : List Char) :
    Option ((Nat × Nat × String × Option String) × List Char) := do
  let s ← matchLit "EmTransitionStates[".toList s
  let (i, s) ← matchDigits1 s
  let s ← matchLit "].AutoStartPerms.".toList s
  let (j, s) ← matchDigits1 s
  let s := dropWs0 s
  let s ← matchLit ":=".toList s
  let s := dropWs0 s
  let p := s.span (fun c => ¬ c = ';')
  if p.1.isEmpty then none
  else do
    let s ← matchLit [';'] p.2
    let s := dropWs0 s
    match matchLit "//".toList s with
    | some r => some ((i, j, String.mk p.1, some (String.mk r)), [])
    | none => some ((i, j, String.mk p.1, none), s)

/-- Pattern `PATTERN_ACTUATOR_MOVE` with the `{mm_number}` placeholder
substituted: `MOVE\('([^']+)',\s*<mm>Cyls\[(\d+)\]\.Stg\.Name\)`, returning
(index, description) and the rest for `finditer`. -/
def matchAtMove (mm : String) (s : List Char) :
    Option ((Nat × String) × List Char) := do
  let s ← matchLit ("MOVE(".toList ++ [sqc]) s
  let p := s.span (fun c => ¬ c = sqc)
  if p.1.isEmpty then none
  else do
    let s ← matchLit [sqc, ','] p.2
    let s := dropWs0 s
    let s ← matchLit (mm.toList ++ "Cyls[".toList) s
    let (idx, s) ← matchDigits1 s
    let rest ← matchLit "].Stg.Name)".toList s
    some ((idx, String.mk p.1), rest)

/-- Pattern `(MM\d+)` under `re.search`, as used to pull the MM identifier out
of a routine name. -/
def matchAtMMToken (s : List Char) : Option String := do
  let s ← matchLit "MM".toList s
  let (_, _) ← matchDigits1 s
  some ("MM" ++ String.mk (s.takeWhile Char.isDigit))

/-- First `MM\d+` token of a string, or none. -/
def firstMMToken (s : String) : Option String :=
  searchO matchAtMMToken s.toList

/-- Pattern `MM(\d+)` under `re.match` (`_extract_mm_number_from_key`): the MM
number of a tag name, `999` when the name does not start with `MM<digits>`. -/
def extract_mm_number_from_key (mm : String) : Nat :=
  match matchLit "MM".toList mm.toList with
  | none => 999
  | some t =>
    match matchDigits1 t with
    | some (n, _) => n
    | none => 999

/-! ## Association lists and stable sorting

Python dict assignment is overwrite-in-place (`upsert`), lookup returns the
stored value (`alookup`); `list.sort` / `sorted` are stable, embedded by a
stable insertion sort. -/

/-- Lookup in an association list (first matching key; maps built with
`upsert` have unique keys, matching Python dict lookup). -/
def alookup {α β : Type} [DecidableEq α] : List (α × β) → α → Option β
  | [], _ => none
  | kv :: t, k => if kv.1 = k then some kv.2 else alookup t k

/-- Python dict assignment `m[k] = v`: overwrite in place if present, else
append. -/
def upsert {α β : Type} [DecidableEq α] (m : List (α × β)) (k : α) (v : β) :
    List (α × β) :=
  if (alookup m k).isSome then m.map (fun kv => if kv.1 = k then (k, v) else kv)
  else m ++ [(k, v)]

/-- Python dict built from a pair sequence by repeated assignment (later
duplicates overwrite earlier ones), as in `{seq['sequence_index']: seq for
seq in sequences}`. -/
def dictOf {α β : Type} [DecidableEq α] (l : List (α × β)) : List (α × β) :=
  l.foldl (fun m kv => upsert m kv.1 kv.2) []

/-- Stable insert for `stableSortBy`: `a` goes after every existing element
`b` with `le b a`. -/
def insBy {α : Type} (le : α → α → Bool) (a : α) : List α → List α
  | [] => [a]
  | b :: bs => if le b a then b :: insBy le a bs else a :: b :: bs

/-- Stable sort (Python `sorted` / `list.sort`): equal keys keep their
original relative order. -/
def stableSortBy {α : Type} (le : α → α → Bool) (l : List α) : List α :=
  l.foldl (fun acc a => insBy le a acc) []

/-- Stable sort ascending by a natural-number key. -/
def sortByKey {α : Type} (key : α → Nat) (l : List α) : List α :=
  stableSortBy (fun x y => key x ≤ key y) l

/-- Python `sorted(set(l))` for natural numbers: the increasing enumeration of
the members of `l`. -/
def sortedDistinct (l : List Nat) : List Nat :=
  (List.range (l.foldl max 0 + 1)).filter (fun i => l.contains i)

/-! ## Data model (src/core/xml_navigator.py)

An L5X document is embedded as programs owning routines and tags.  Routine
bodies carry both their structured-text `Line` elements and the `Text`
content of their ladder `Rung` elements; XML attributes that default to the
empty string in the source (`tag.get('Dimensions', '')`) are plain strings.
-/

structure Routine where
  name : String
  lines : List String
  rungs : List String
deriving Repr, DecidableEq

structure Tag where
  name : String
  dataType : String
  dimensions : String
  description : String
deriving Repr, DecidableEq

structure Program where
  name : String
  routines : List Routine
  tags : List Tag
deriving Repr, DecidableEq

structure Document where
  programs : List Program
deriving Repr, DecidableEq

/-- All routines in document order
(`./Controller/Programs/Program/Routines/Routine`). -/
def Document.allRoutines (d : Document) : List Routine :=
  (d.programs.map Program.routines).flatten

/-- All tags in document order (`./Controller/Programs/Program/Tags/Tag`). -/
def Document.allTags (d : Document) : List Tag :=
  (d.programs.map Program.tags).flatten

/-- XMLNavigator.find_routine_by_name: first routine with the given name, in
document order. -/
def find_routine_by_name (d : Document) (routine_name : String) : Option Routine :=
  (d.allRoutines.filter (fun r => r.name = routine_name)).head?

/-- XMLNavigator.find_program_by_name: first program with the given name. -/
def find_program_by_name (d : Document) (program_name : String) : Option Program :=
  (d.programs.filter (fun p => p.name = program_name)).head?

/-- XMLNavigator.find_tag_by_name: first tag with the given name, in document
order. -/
def find_tag_by_name (d : Document) (tag_name : String) : Option Tag :=
  (d.allTags.filter (fun t => t.name = tag_name)).head?

/-- Python `int(s)`: optional surrounding whitespace, optional sign, one or
more digits consuming the whole string. -/
def pyParseInt (s : String) : Option Int :=
  let l := ((s.toList.dropWhile pyIsSpace).reverse.dropWhile pyIsSpace).reverse
  match l with
  | '-' :: t =>
    if ¬ t.isEmpty ∧ t.all Char.isDigit then some (-(digitsVal t : Int)) else none
  | '+' :: t =>
    if ¬ t.isEmpty ∧ t.all Char.isDigit then some (digitsVal t : Int) else none
  | t =>
    if ¬ t.isEmpty ∧ t.all Char.isDigit then some (digitsVal t : Int) else none

/-- First `\d+` run of a string (`re.search(r'\d+', ...)`). -/
def firstDigitRun (s : String) : Option Nat :=
  searchO (fun l => (matchDigits1 l).map Prod.fst) s.toList

/-- XMLNavigator.get_tag_dimension: the `Dimensions` attribute as an integer,
via `int(...)` with a first-digit-run fallback; `none` when the tag or the
attribute is absent. -/
def get_tag_dimension (d : Document) (tag_name : String) : Option Int :=
  match find_tag_by_name d tag_name with
  | none => none
  | some tag =>
    if tag.dimensions = "" then none
    else
      match pyParseInt tag.dimensions with
      | some v => some v
      | none => (firstDigitRun tag.dimensions).map Int.ofNat

/-- Routine resolution shared by the extractors and the pipeline (repeated
verbatim in actuator_extractor.py lines 44-54, transition_extractor.py lines
45-54 and extraction_pipeline.py lines 392-402): with a program name, the
first routine of that name inside the program; when the program is missing, a
warning is logged and the search falls back to the whole document; without a
program name, the global search. -/
def scopedRoutine (d : Document) (routine_name : String)
    (program_name : Option String) : Option Routine :=
  match program_name with
  | some pn =>
    match find_program_by_name d pn with
    | some pe => (pe.routines.filter (fun r => r.name = routine_name)).head?
    | none => find_routine_by_name d routine_name
  | none => find_routine_by_name d routine_name

/-! ## Actuator extractor (src/extractors/actuator_extractor.py) -/

structure Actuator where
  index : Nat
  description : String
  mm_number : String
deriving Repr, DecidableEq

/-- Routine-name test for the pattern `_{mm}$|_{mm}_` (used both by
`find_routines_by_pattern` on the global path and by the explicit
endswith/contains checks on the program-scoped path). -/
def routineMatchesMM (mm : String) (name : String) : Bool :=
  strEndsWith name ("_" ++ mm) || strContains name ("_" ++ mm ++ "_")

/-- ActuatorExtractor.find_items: locate the routine (program-scoped when a
program name is given and found, else globally), pull the first `MM\d+` token
out of the routine name, scan every rung text for the MOVE pattern, sort by
index (duplicates retained). -/
def find_items_actuators (d : Document) (routine_name : String)
    (program_name : Option String) : List Actuator :=
  match scopedRoutine d routine_name program_name with
  | none => []
  | some r =>
    match firstMMToken routine_name with
    | none => []
    | some mm =>
      let acts : List Actuator := (r.rungs.map (fun text : String =>
        (findAll (matchAtMove mm) text.toList).map (fun p =>
          ({ index := p.1, description := p.2, mm_number := mm } : Actuator)))).flatten
      sortByKey Actuator.index acts

/-- ActuatorExtractor.find_actuators_for_mm: resolve the MM routine by the
naming convention (program-scoped when a program name is given and found,
else over the whole document), take the first match, and extract its
actuators. -/
def find_actuators_for_mm (d : Document) (mm : String)
    (program_name : Option String) : List Actuator :=
  let matching : List Routine :=
    match program_name with
    | some pn =>
      match find_program_by_name d pn with
      | some pe => pe.routines.filter (fun r => routineMatchesMM mm r.name)
      | none => d.allRoutines.filter (fun r => routineMatchesMM mm r.name)
    | none => d.allRoutines.filter (fun r => routineMatchesMM mm r.name)
  match matching.head? with
  | none => []
  | some r => find_items_actuators d r.name program_name

/-! ## Array validator (src/validators/array_validator.py) -/

structure ValidationResult where
  is_valid : Option Bool
  array_name : String
  array_dimension : Option Int
  descriptions_found : Nat
  missing_indices : List Nat
deriving Repr, DecidableEq

/-- ArrayValidator.validate_actuators.  `is_valid` is the tri-state
(`none` = unknown when the dimension is unresolvable); the sorted set
difference `sorted(set(range(dim)) - found)` is the increasing enumeration of
`range(dim)` filtered by absence. -/
def validate_actuators (d : Document) (mm : String) (actuators : List Actuator) :
    ValidationResult :=
  let array_name := mm ++ "Cyls"
  match get_tag_dimension d array_name with
  | none =>
    { is_valid := none, array_name := array_name, array_dimension := none,
      descriptions_found := actuators.length, missing_indices := [] }
  | some dim =>
    let found := actuators.map Actuator.index
    let missing := (List.range dim.toNat).filter (fun i => ¬ found.contains i)
    { is_valid := some missing.isEmpty, array_name := array_name,
      array_dimension := some dim, descriptions_found := actuators.length,
      missing_indices := missing }

/-! ## Transition extractor (src/extractors/transition_extractor.py) -/

structure Permission where
  permission_index : Nat
  permission_value : String
  comment : String
deriving Repr, DecidableEq

structure TransitionOut where
  transition_index : Nat
  transition_name : Option String
  permission_count : Nat
  permissions : List Permission
deriving Repr, DecidableEq

/-- One line of TransitionExtractor.find_items: record a region name marker
(overwriting), collect every permission match.  An empty `(.*)` comment group
is falsy in the source and stored as `""`, which coincides with stripping
it. -/
def transLineStep (st : List (Nat × String) × List (Nat × Permission))
    (line : String) : List (Nat × String) × List (Nat × Permission) :=
  let names :=
    match searchO (matchAtRegion ["Transition", "State"]) line.toList with
    | some p => upsert st.1 p.1 (trimPy p.2)
    | none => st.1
  let perms := st.2 ++ (findAll matchAtTransPerm line.toList).map (fun q : Nat × Nat × String × Option String =>
    (q.1, ({ permission_index := q.2.1, permission_value := trimPy q.2.2.1,
             comment := match q.2.2.2 with | none => "" | some c => trimPy c }
           : Permission)))
  (names, perms)

/-- TransitionExtractor.find_items: locate the routine (scoped as the other
extractors), scan its lines, and return transitions sorted by index with
permissions sorted by permission index; indices come from the permission
matches, names from the region markers. -/
def find_items_transitions (d : Document) (routine_name : String)
    (program_name : Option String) : List TransitionOut :=
  match scopedRoutine d routine_name program_name with
  | none => []
  | some r =>
    let st := r.lines.foldl transLineStep ([], [])
    (sortedDistinct (st.2.map Prod.fst)).map (fun i =>
      let perms := sortByKey Permission.permission_index
        ((st.2.filter (fun q => q.1 = i)).map Prod.snd)
      { transition_index := i, transition_name := alookup st.1 i,
        permission_count := perms.length, permissions := perms })

structure TransitionsData where
  routine_name : String
  transition_count : Nat
  transitions : List TransitionOut
deriving Repr, DecidableEq

/-- TransitionExtractor.extract / format_output (via the BaseExtractor
template method; validate_items is the identity). -/
def extract_transitions (d : Document) (routine_name : String)
    (program_name : Option String) : TransitionsData :=
  let items := find_items_transitions d routine_name program_name
  { routine_name := routine_name, transition_count := items.length,
    transitions := items }

/-! ## Sequence extraction pipeline
(src/pipeline/extraction_pipeline.py, extract_sequences_with_actuators) -/

structure ActionData where
  action_name : String
  mm_number : Option String
  state : Option String
  actuators : List Actuator
  validation : Option ValidationResult
deriving Repr, DecidableEq, Inhabited

/-- Per-action record construction of extract_sequences_with_actuators
(pipeline lines 444-490).  When the name parses, the actuator extractor and
validator are invoked with the document root and no program scope — the
source passes `self.navigator.get_root()` and omits `program_name` at lines
458-468. -/
def mkActionData (d : Document) (name : String) : ActionData :=
  match parse_action_name name with
  | some ms =>
    let actuators := find_actuators_for_mm d ms.1 none
    let validation := validate_actuators d ms.1 actuators
    { action_name := name, mm_number := some ms.1, state := some ms.2,
      actuators := actuators, validation := some validation }
  | none =>
    { action_name := name, mm_number := none, state := none, actuators := [],
      validation := none }

/-- Key of the nested `sequences[seq][step][action]` dictionary. -/
abbrev AKey := Nat × Nat × Nat

structure ScanState where
  names : List (Nat × String)
  acts : List (AKey × ActionData)
deriving Repr

/-- One line of the single-pass scan (pipeline lines 411-490): region marker
first (overwriting), hardcoded name only when no region matched on this line
and the index has no name yet, then every action-assignment match. -/
def processLine (d : Document) (st : ScanState) (line : String) : ScanState :=
  let region := searchO (matchAtRegion ["Sequence"]) line.toList
  let names1 :=
    match region with
    | some p => upsert st.names p.1 (trimPy p.2)
    | none => st.names
  let names2 :=
    match region with
    | some _ => names1
    | none =>
      match searchO matchAtSeqName line.toList with
      | some p =>
        if (alookup names1 p.1).isSome then names1
        else names1 ++ [(p.1, trimPy p.2)]
      | none => names1
  let acts := (findAll matchAtActionAssign line.toList).foldl
    (fun m q => upsert m (q.1, q.2.1, q.2.2.1) (mkActionData d q.2.2.2)) st.acts
  { names := names2, acts := acts }

structure ActionOut where
  action_index : Nat
  action_name : String
  mm_number : Option String
  state : Option String
  actuator_count : Nat
  actuators : List Actuator
  validation : Option ValidationResult
deriving Repr, DecidableEq

structure StepOut where
  step_index : Nat
  actions : List ActionOut
deriving Repr, DecidableEq

structure SequenceOut where
  sequence_index : Nat
  sequence_name : Option String
  steps : List StepOut
deriving Repr, DecidableEq

/-- Output action record built from a stored action entry
(format_sequences, pipeline lines 543-558). -/
def mkActionOut (idx : Nat) (ad : ActionData) : ActionOut :=
  { action_index := idx, action_name := ad.action_name,
    mm_number := ad.mm_number, state := ad.state,
    actuator_count := ad.actuators.length, actuators := ad.actuators,
    validation := ad.validation }

/-- ExtractionPipeline.format_sequences: iterate the sorted distinct sequence
/ step / action indices of the nested dictionary, attaching the recorded
sequence names. -/
def format_sequences (m : List (AKey × ActionData)) (names : List (Nat × String)) :
    List SequenceOut :=
  (sortedDistinct (m.map (fun kv => kv.1.1))).map (fun s =>
    { sequence_index := s,
      sequence_name := alookup names s,
      steps := (sortedDistinct ((m.filter (fun kv => kv.1.1 = s)).map
          (fun kv => kv.1.2.1))).map (fun t =>
        { step_index := t,
          actions := (sortedDistinct ((m.filter
              (fun kv => kv.1.1 = s ∧ kv.1.2.1 = t)).map
              (fun kv => kv.1.2.2))).map (fun a =>
            mkActionOut a ((alookup m (s, t, a)).getD default)) }) })

/-- ExtractionPipeline.extract_sequences_with_actuators (pipeline lines
369-493): resolve the routine (program-scoped when a program name is given
and the program exists; a missing program logs a warning and falls back to
the global search; a missing routine logs a warning and yields `[]`), scan
its lines in one pass, and format the result. -/
def extract_sequences_with_actuators (d : Document) (routine_name : String)
    (program_name : Option String) : List SequenceOut :=
  match scopedRoutine d routine_name program_name with
  | none => []
  | some r =>
    let st := r.lines.foldl (processLine d) { names := [], acts := [] }
    format_sequences st.acts st.names

/-! ## Digital inputs (src/extractors/digital_input_extractor.py and
pipeline extract_digital_inputs) -/

structure DigitalInput where
  program : String
  tag_name : String
  description : String
  parent_name : String
  part_assignment : String
deriving Repr, DecidableEq

structure DigitalInputsData where
  input_count : Nat
  digital_inputs : List DigitalInput
deriving Repr, DecidableEq

/-- ExtractionPipeline.extract_digital_inputs (pipeline lines 282-331).  The
scope root is resolved as in the source (missing program: warning, fall back
to the whole document), but the call at line 310 passes
`extract_all_digital_inputs` a `program_name` keyword argument that
`DigitalInputExtractor.extract_all_digital_inputs` (digital_input_extractor.py
line 25, signature `(self, root)`) does not accept, so in Python every call
raises `TypeError` before any tag is read; the embedding returns that error
unconditionally. -/
def extract_digital_inputs (d : Document) (program_name : Option String) :
    Except Unit DigitalInputsData :=
  let _search_root : Option Program :=
    match program_name with
    | some pn => find_program_by_name d pn
    | none => none
  .error ()

/-! ## Valve mapping extractor (src/extractors/valve_mapping_extractor.py) -/

structure MMCommands where
  work_cmd : Option String
  home_cmd : Option String
deriving Repr, DecidableEq

structure ValveMapEntry where
  mm_number : String
  manifold : String
  valve_work : String
  valve_home : String
deriving Repr, DecidableEq

/-- Truthiness-and-containment test `cmd and cmd in param` of
_parse_aoi_valvemanifold (an empty command string is falsy). -/
def cmdMatches (cmd : Option String) (param : String) : Bool :=
  match cmd with
  | none => false
  | some c => ¬ c = "" && strContains param c

/-- Pair loop of _parse_aoi_valvemanifold (lines 233-275): walk the parameter
pairs from index 5 upward; a missing or empty parameter breaks the loop; a
pair whose both sides contain `Spare.DO` is skipped; otherwise the first MM
(in dict order) whose work command occurs in the work parameter or whose home
command occurs in the home parameter receives the mapping, with 1-based valve
position `n` (`<n>A` for a matched non-spare work side, `<n>B` for a matched
non-spare home side, `N/A` otherwise). -/
def valvePairLoop (manifold : String) (mm_commands : List (String × MMCommands)) :
    List String → Nat → List ValveMapEntry
  | [], _ => []
  | [_], _ => []
  | w :: h :: t, n =>
    if w = "" ∨ h = "" then []
    else if strContains w "Spare.DO" && strContains h "Spare.DO" then
      valvePairLoop manifold mm_commands t (n + 1)
    else
      match mm_commands.find? (fun p =>
        cmdMatches p.2.work_cmd w || cmdMatches p.2.home_cmd h) with
      | none => valvePairLoop manifold mm_commands t (n + 1)
      | some p =>
        { mm_number := p.1, manifold := manifold,
          valve_work :=
            if cmdMatches p.2.work_cmd w && ¬ strContains w "Spare.DO" then
              natToStr n ++ "A"
            else "N/A",
          valve_home :=
            if cmdMatches p.2.home_cmd h && ¬ strContains h "Spare.DO" then
              natToStr n ++ "B"
            else "N/A" } :: valvePairLoop manifold mm_commands t (n + 1)

/-- ValveMappingExtractor._parse_aoi_valvemanifold: split the AOI parameter
string on commas, strip each parameter, require at least 7, take the manifold
name from parameter 3 (index 2), and walk the valve pairs starting at the
6th/7th parameters (index 5) with 1-based positions. -/
def parse_aoi_valvemanifold (params_str : String)
    (mm_commands : List (String × MMCommands)) : List ValveMapEntry :=
  let params := (splitOnCh ',' params_str).map trimPy
  if params.length < 7 then []
  else
    let manifold := (params.get? 2).getD ""
    valvePairLoop manifold mm_commands (params.drop 5) 1

/-! ## Sequence detail exporter
(src/exporters/sequence_detail_exporter.py): state formatting, cylinder-state
reconstruction, valve-name computation, permission expansion and the
transitions section.  Worksheet rows are embedded as records carrying columns
2-12 of the 17-column sheet (the ID column is positional and the five timing
columns are always empty). -/

/-- SequenceDetailExporter._format_state_robust (lines 894-919): `TO`-prefixed
state for action rows; `None` and the empty string default to `TO HOME`. -/
def format_state_robust (state_value : Option String) : String :=
  match state_value with
  | none => "TO HOME"
  | some s =>
    if s = "" then "TO HOME"
    else
      let n := upperStr (trimPy s)
      if "TO ".toList.isPrefixOf n.toList then n
      else if n = "" then "TO HOME"
      else "TO " ++ n

/-- SequenceDetailExporter._format_start_condition_state (lines 921-950):
`AT`-prefixed state for start-condition rows, removing a `TO ` prefix left by
the override passes. -/
def format_start_condition_state (state_value : String) : String :=
  if state_value = "" then "AT HOME"
  else
    let n := upperStr (trimPy state_value)
    let n := if "TO ".toList.isPrefixOf n.toList then trimPy (String.mk (n.toList.drop 3))
             else n
    if "AT ".toList.isPrefixOf n.toList then n
    else if n = "" then "AT HOME"
    else "AT " ++ n

structure ValveInfo where
  manifold : String
  valve_work : String
  valve_home : String
deriving Repr, DecidableEq

structure CylInfo where
  actuator_name : String
  state : String
  mm_number : String
  description : String
  manifold : String
  valve_work : String
  valve_home : String
deriving Repr, DecidableEq

/-- Key of the `cylinder_state` dictionary: `(mm_number, actuator index)`.
The MM side is an `Option` because override passes key on the action's
`mm_number`, which is `None` for untyped actions; entries created by the
baseline pass always carry `some`. -/
abbrev CylKey := Option String × Nat

abbrev CylMap := List (CylKey × CylInfo)

/-- The guarded state overwrite
`if unique_key in cylinder_state: cylinder_state[unique_key]['state'] = v`
(exporter lines 229-230 and 246-247). -/
def overwriteState (m : CylMap) (k : CylKey) (v : String) : CylMap :=
  if (alookup m k).isSome then
    m.map (fun kv => if kv.1 = k then (k, { kv.2 with state := v }) else kv)
  else m

/-- Baseline pass (exporter lines 181-214): every actuator of every MM group
starts at state `HOME`, carrying the MM description and valve-mapping data. -/
def initCylState (actuators_by_mm : List (String × List Actuator))
    (mm_to_description : List (String × String))
    (mm_to_valve : List (String × ValveInfo)) : CylMap :=
  actuators_by_mm.foldl (fun m p =>
    let mm := p.1
    let mm_description := (alookup mm_to_description mm).getD ""
    let vinfo := alookup mm_to_valve mm
    let manifold := match vinfo with | some v => v.manifold | none => ""
    let valve_work := match vinfo with | some v => v.valve_work | none => ""
    let valve_home := match vinfo with | some v => v.valve_home | none => ""
    p.2.foldl (fun m a =>
      upsert m (some mm, a.index)
        { actuator_name := a.description, state := "HOME", mm_number := mm,
          description := mm_description, manifold := manifold,
          valve_work := valve_work, valve_home := valve_home }) m) []

/-- Override of one action: every actuator it references gets the formatted
state (exporter lines 220-230 / 237-247). -/
def applyActionOverride (m : CylMap) (a : ActionOut) : CylMap :=
  let state_formatted := format_state_robust a.state
  a.actuators.foldl (fun m act =>
    overwriteState m (a.mm_number, act.index) state_formatted) m

/-- Common-routine override pass (exporter lines 216-230): replay every
sequence, step and action in order. -/
def applySeqOverrides (m : CylMap) (seqs : List SequenceOut) : CylMap :=
  seqs.foldl (fun m sq => sq.steps.foldl (fun m stp =>
    stp.actions.foldl applyActionOverride m) m) m

/-- Model-routine override pass (exporter lines 232-247): replay only the
first sequence, when there is one. -/
def applyModelFirstSeq (m : CylMap) (model_sequences : List SequenceOut) : CylMap :=
  match model_sequences.head? with
  | none => m
  | some sq => sq.steps.foldl (fun m stp => stp.actions.foldl applyActionOverride m) m

/-- The reconstructed cylinder state: baseline, then common overrides, then
the model routine's first sequence. -/
def finalCylState (actuators_by_mm : List (String × List Actuator))
    (mm_to_description : List (String × String))
    (mm_to_valve : List (String × ValveInfo))
    (common_sequences model_sequences : List SequenceOut) : CylMap :=
  applyModelFirstSeq
    (applySeqOverrides (initCylState actuators_by_mm mm_to_description mm_to_valve)
      common_sequences)
    model_sequences

/-- SequenceDetailExporter._extract_kj_name: first `KJ(\d{1,2})` of the
manifold name, or `N/A`. -/
def extract_kj_name (manifold : String) : String :=
  if manifold = "" then "N/A"
  else
    match searchO (fun s => do
        let s ← matchLit "KJ".toList s
        let p := s.span Char.isDigit
        if p.1.isEmpty then none else some (String.mk (p.1.take 2)))
      manifold.toList with
    | some ds => "KJ" ++ ds
    | none => "N/A"

/-- SequenceDetailExporter._build_valve_diagram_name: `'=KJ<k>-QMB<n>` with a
leading single quote, or `N/A`. -/
def build_valve_diagram_name (kj_name valve_position : String) : String :=
  if kj_name = "N/A" ∨ valve_position = "" ∨ valve_position = "N/A" then "N/A"
  else
    let valve_num := String.mk
      ((valve_position.toList.reverse.dropWhile (fun c => c = 'A' ∨ c = 'B')).reverse)
    String.mk [sqc] ++ "=" ++ kj_name ++ "-QMB" ++ valve_num

/-- SequenceDetailExporter._select_valve_position: work position when the
upper-cased state mentions WORK, else home. -/
def select_valve_position (state : String) (vi : ValveInfo) : String :=
  if strContains (upperStr state) "WORK" then vi.valve_work else vi.valve_home

/-- SequenceDetailExporter._calculate_valve_name: `none` when the MM has no
valve mapping, the manifold is empty, or the selected position is empty /
`N/A`; a `None` MM (untyped action) is never a dictionary key. -/
def calculate_valve_name (state : String) (mm_number : Option String)
    (mm_to_valve : List (String × ValveInfo)) : Option String :=
  match mm_number with
  | none => none
  | some mm =>
    match alookup mm_to_valve mm with
    | none => none
    | some vi =>
      if vi.manifold = "" then none
      else
        let valve_position := select_valve_position state vi
        if valve_position = "" ∨ valve_position = "N/A" then none
        else some (build_valve_diagram_name (extract_kj_name vi.manifold) valve_position)

/-- SequenceDetailExporter._format_actor_group_name: `'=<name with
underscores replaced by hyphens>`, or `none` for an empty name. -/
def format_actor_group_name (name : String) : Option String :=
  if name = "" then none
  else some (String.mk [sqc] ++ "=" ++ replaceCh name '_' '-')

/-- Worksheet row, columns 2-12 of the 17-column sheet (Style, Row Type,
Actor Type, Actor/Unit, Custom Description, Custom Duration, Standard
Action/Status, Standard Duration, Actor/Group Description, Actor/Group Name,
Valve Name). -/
structure Row where
  style : Option String
  row_type : String
  actor_type : Option String
  actor_unit : Option String
  custom_desc : Option String
  custom_duration : Option String
  status : Option String
  std_duration : Option String
  group_desc : Option String
  group_name : Option String
  valve_name : Option String
deriving Repr, DecidableEq

/-- Sorting key of the start-condition cylinder listing (exporter lines
250-256): MM number of the key's MM tag, then actuator index. -/
def cylSortLe (a b : CylKey × CylInfo) : Bool :=
  let ka := extract_mm_number_from_key (a.1.1.getD "")
  let kb := extract_mm_number_from_key (b.1.1.getD "")
  ka < kb ∨ (ka = kb ∧ a.1.2 ≤ b.1.2)

/-- One start-condition cylinder row (exporter lines 281-316). -/
def startConditionCylRow (mm_to_valve : List (String × ValveInfo))
    (kv : CylKey × CylInfo) : Row :=
  { style := some "Common", row_type := "Start Conditions",
    actor_type := some "CylinderUnits", actor_unit := none,
    custom_desc := none, custom_duration := none,
    status := some (format_start_condition_state kv.2.state),
    std_duration := some "0.0",
    group_desc := some kv.2.description,
    group_name := format_actor_group_name kv.2.actuator_name,
    valve_name := calculate_valve_name kv.2.state (some kv.2.mm_number) mm_to_valve }

/-- The start-condition cylinder rows: the reconstructed state sorted by
(MM number, index), one row each. -/
def startConditionRows (mm_to_valve : List (String × ValveInfo)) (m : CylMap) :
    List Row :=
  (stableSortBy cylSortLe m).map (startConditionCylRow mm_to_valve)

/-! ## Permission expansion
(SequenceDetailExporter._expand_permission_to_wait_conditions, lines 707-892).
Case-insensitive patterns match with case-folded comparison but capture the
original text where the source later inspects it case-sensitively. -/

/-- Case-insensitive literal match (ASCII). -/
def matchLitCI (lit : List Char) (s : List Char) : Option (List Char) :=
  match lit, s with
  | [], rest => some rest
  | _ :: _, [] => none
  | a :: l, c :: cs => if lowerCh c = lowerCh a then matchLitCI l cs else none

/-- Case-insensitive alternation, alternatives tried in order; returns the
matched original characters and the rest. -/
def matchAltCI (alts : List String) (s : List Char) : Option (List Char × List Char) :=
  match alts with
  | [] => none
  | a :: rest =>
    match matchLitCI a.toList s with
    | some r => some (s.take a.toList.length, r)
    | none => matchAltCI rest s

/-- Pattern `Part\d+(?:Present|Valid|Detected)` (case-insensitive) at the
current position. -/
def matchAtPartCond (s : List Char) : Option Unit := do
  let s ← matchLitCI "Part".toList s
  let p := s.span Char.isDigit
  if p.1.isEmpty then none
  else (matchAltCI ["Present", "Valid", "Detected"] p.2).map (fun _ => ())

/-- Pattern `Part(\d+)` (case-insensitive) at the current position. -/
def matchAtPartNum (s : List Char) : Option Nat := do
  let s ← matchLitCI "Part".toList s
  let p := s.span Char.isDigit
  if p.1.isEmpty then none else some (digitsVal p.1)

/-- Pattern `MM\d+[._]?(Home|Work|stsAt)` (case-insensitive) at the current
position; the optional separator backtracks. -/
def matchAtCylCond (s : List Char) : Option Unit := do
  let s ← matchLitCI "MM".toList s
  let p := s.span Char.isDigit
  if p.1.isEmpty then none
  else
    let alt := fun (t : List Char) => (matchAltCI ["Home", "Work", "stsAt"] t).map (fun _ => ())
    let withSep : Option Unit :=
      match p.2 with
      | c :: cs => if c = '.' ∨ c = '_' then alt cs else none
      | [] => none
    withSep.orElse (fun _ => alt p.2)

/-- Pattern `MM(\d+)[._]?(Home|Work|stsAt(Home|Work))` (case-insensitive) at
the current position; group 2 is returned with its original casing, as the
source then tests `'Work' in state_raw` case-sensitively. -/
def matchAtCylExtract (s : List Char) : Option (Nat × String) := do
  let s ← matchLitCI "MM".toList s
  let p := s.span Char.isDigit
  if p.1.isEmpty then none
  else
    let n := digitsVal p.1
    let alts := ["Home", "Work", "stsAtHome", "stsAtWork"]
    let withSep : Option (List Char × List Char) :=
      match p.2 with
      | c :: cs => if c = '.' ∨ c = '_' then matchAltCI alts cs else none
      | [] => none
    match withSep.orElse (fun _ => matchAltCI alts p.2) with
    | some (orig, _) => some (n, String.mk orig)
    | none => none

/-- Pattern `Rbt[._]?(\d+)` (case-insensitive) at the current position. -/
def matchAtRbtNum (s : List Char) : Option Nat := do
  let s ← matchLitCI "Rbt".toList s
  let digitsOf := fun (t : List Char) =>
    let p := t.span Char.isDigit
    if p.1.isEmpty then none else some (digitsVal p.1)
  let withSep : Option Nat :=
    match s with
    | c :: cs => if c = '.' ∨ c = '_' then digitsOf cs else none
    | [] => none
  withSep.orElse (fun _ => digitsOf s)

/-- Pattern `Robot\s*(\d+)` (case-insensitive) at the current position. -/
def matchAtRobotNum (s : List Char) : Option Nat := do
  let s ← matchLitCI "Robot".toList s
  let s := dropWs0 s
  let p := s.span Char.isDigit
  if p.1.isEmpty then none else some (digitsVal p.1)

/-- Duration pattern `(\d+(?:\.\d+)?)\s*(ms|s|sec|seconds?)` at the current
position of the case-folded text.  The unit alternation is tried in order, so
only `ms` (when the next two characters are `ms`) or `s` can be captured; the
normalisation then yields `<value>ms` or `<value>s`. -/
def matchAtDuration (s : List Char) : Option String :=
  let p := s.span Char.isDigit
  if p.1.isEmpty then none
  else
    let vr : List Char × List Char :=
      match p.2 with
      | '.' :: t =>
        let q := t.span Char.isDigit
        if q.1.isEmpty then (p.1, p.2) else (p.1 ++ '.' :: q.1, q.2)
      | _ => (p.1, p.2)
    let s3 := dropWs0 vr.2
    match matchLit "ms".toList s3 with
    | some _ => some (String.mk vr.1 ++ "ms")
    | none =>
      match matchLit "s".toList s3 with
      | some _ => some (String.mk vr.1 ++ "s")
      | none => none

/-- SequenceDetailExporter._extract_duration: first duration anywhere in the
text, or the empty string. -/
def extract_duration (text : String) : String :=
  match searchO matchAtDuration (lowerStr text).toList with
  | some r => r
  | none => ""

/-- SequenceDetailExporter._extract_robot_unit: robot number from the
permission value (`Rbt[._]?(\d+)`), else from the comment
(`Robot\s*(\d+)`), else `Robot 1`. -/
def extract_robot_unit (permission_value comment : String) : String :=
  match searchO matchAtRbtNum permission_value.toList with
  | some n => "Robot " ++ natToStr n
  | none =>
    match searchO matchAtRobotNum comment.toList with
    | some n => "Robot " ++ natToStr n
    | none => "Robot 1"

/-- SequenceDetailExporter._sort_part_name: `(0, number, letter suffix)` for
`Part<digits><letters>`, else `(1, 0, name)`. -/
def sort_part_key (part_name : String) : Nat × Nat × String :=
  match matchLit "Part".toList part_name.toList with
  | some t =>
    let p := t.span Char.isDigit
    if p.1.isEmpty then (1, 0, part_name)
    else (0, digitsVal p.1, String.mk (p.2.takeWhile Char.isAlpha))
  | none => (1, 0, part_name)

/-- Lexicographic order on the part sort keys (Python tuple comparison). -/
def partKeyLe (x y : Nat × Nat × String) : Bool :=
  x.1 < y.1 ∨ (x.1 = y.1 ∧ (x.2.1 < y.2.1 ∨ (x.2.1 = y.2.1 ∧
    (x.2.2 < y.2.2 ∨ x.2.2 = y.2.2))))

/-- Encodes the `standard_duration` slot of a wait-condition dictionary: the
key can be absent (row default `0.0`), present as `None`, or present with a
value. -/
inductive StdDurField where
  | absent
  | val (v : Option String)
deriving Repr, DecidableEq

structure WaitCond where
  actor_type : Option String
  actor_unit : Option String
  custom_desc : Option String
  custom_duration : Option String
  status : Option String
  std_duration : StdDurField
  group_desc : Option String
  group_name : Option String
deriving Repr, DecidableEq

/-- One sensor wait row shared by the all-parts and specific-part branches. -/
def sensorWaitCond (di : DigitalInput) : WaitCond :=
  { actor_type := some "SensorUnits", actor_unit := none,
    custom_desc := none, custom_duration := none, status := some "ON",
    std_duration := .val (some "0.0"),
    group_desc := some (if di.description = "" then di.part_assignment
                        else di.description),
    group_name := format_actor_group_name di.tag_name }

/-- SequenceDetailExporter._expand_permission_to_wait_conditions: the six
classification branches, in the order of the source's `elif` chain. -/
def expand_permission_to_wait_conditions (permission : Permission)
    (digital_inputs_data : DigitalInputsData) : List WaitCond :=
  let pv := permission.permission_value
  let comment := permission.comment
  if strContains pv "AllParts" then
    let sensors_list := (digital_inputs_data.digital_inputs.filter (fun di =>
      ¬ di.part_assignment = "N/A" ∧
        "BG".toList.isPrefixOf di.tag_name.toList)).map (fun di =>
      (di.part_assignment, di))
    let sorted := stableSortBy
      (fun a b => partKeyLe (sort_part_key a.1) (sort_part_key b.1)) sensors_list
    sorted.map (fun p => sensorWaitCond p.2)
  else if (searchO matchAtPartCond pv.toList).isSome then
    match searchO matchAtPartNum pv.toList with
    | some n =>
      let target := "Part" ++ natToStr n
      (digital_inputs_data.digital_inputs.filter (fun di =>
        di.part_assignment = target ∧
          "BG".toList.isPrefixOf di.tag_name.toList)).map sensorWaitCond
    | none => []
  else if strContains (lowerStr pv) "timer" || strContains (lowerStr pv) "delay" ||
      strContains (lowerStr pv) "wait" then
    let duration :=
      if ¬ extract_duration pv = "" then extract_duration pv
      else extract_duration comment
    [{ actor_type := some "Timers", actor_unit := none,
       custom_desc := some (if comment = "" then pv else comment),
       custom_duration := some duration, status := none,
       std_duration := .absent, group_desc := none, group_name := none }]
  else if strContains comment "Operator" || strContains (lowerStr comment) "operator" ||
      strContains comment "Load" || strContains comment "Leave" then
    let duration :=
      if ¬ extract_duration comment = "" then extract_duration comment
      else extract_duration pv
    [{ actor_type := some "Operators", actor_unit := none,
       custom_desc := some comment, custom_duration := some duration,
       status := none, std_duration := .val none, group_desc := none,
       group_name := none }]
  else if strContains pv ".Rbt." || strContains comment "Robot" ||
      strContains (lowerStr comment) "robot" then
    let duration :=
      if ¬ extract_duration comment = "" then extract_duration comment
      else extract_duration pv
    [{ actor_type := some "Robots", actor_unit := some (extract_robot_unit pv comment),
       custom_desc := some (if comment = "" then pv else comment),
       custom_duration := some duration, status := none,
       std_duration := .val none, group_desc := none, group_name := none }]
  else if (searchO matchAtCylCond pv.toList).isSome then
    match searchO matchAtCylExtract pv.toList with
    | some p =>
      let state := if strContains p.2 "Work" then "Work" else "Home"
      [{ actor_type := some "CylinderUnits", actor_unit := none,
         custom_desc := none, custom_duration := none,
         status := some (format_state_robust (some state)),
         std_duration := .absent,
         group_desc := some ("MM" ++ natToStr p.1 ++ " Group"),
         group_name := some ("MM" ++ natToStr p.1) }]
    | none =>
      [{ actor_type := none, actor_unit := none, custom_desc := some pv,
         custom_duration := none, status := none, std_duration := .absent,
         group_desc := some comment, group_name := none }]
  else
    [{ actor_type := none, actor_unit := none, custom_desc := some pv,
       custom_duration := none, status := none, std_duration := .absent,
       group_desc := some comment, group_name := none }]

/-! ## Transitions section
(SequenceDetailExporter._write_transitions_section, lines 437-639). -/

structure ActuatorGroup where
  program : String
  tag_name : String
  description : String
deriving Repr, DecidableEq

structure ActuatorGroupsData where
  group_count : Nat
  actuator_groups : List ActuatorGroup
deriving Repr, DecidableEq

structure ValveMappingsData where
  mapping_count : Nat
  valve_mappings : List (String × ValveInfo)
deriving Repr, DecidableEq

/-- Sequences-with-actuators output of the pipeline for one routine, consumed
by the exporter as `common_data` / `model_data`. -/
structure SequencesData where
  routine_name : String
  sequences : List SequenceOut
deriving Repr, DecidableEq

/-- The MM-description dictionary built from the actuator groups (exporter
lines 464-467; later duplicates overwrite). -/
def mmDescriptionDict (g : ActuatorGroupsData) : List (String × String) :=
  dictOf (g.actuator_groups.map (fun x => (x.tag_name, x.description)))

/-- Style label of the section: the part of the model routine name after the
last underscore (exporter lines 460-461). -/
def sequenceStyleOf (routine_name : String) : String :=
  if strContains routine_name "_" then (splitOnCh '_' routine_name).getLastD routine_name
  else routine_name

/-- State-marker classification (exporter lines 497-509).  The stored
`transition_name` key is always present in the extractor output, so a
transition extracted without a region marker reaches the substring test as
`None`, where `'Transition State' in transition_name` raises `TypeError`:
the error case.  Otherwise the kind is `Transition State` when the name
contains that substring, else `Fixed State` (also the default), and the state
name is the text after the first ` - ` when one occurs. -/
def classify_transition_marker (transition_name : Option String) :
    Except Unit (String × String) :=
  match transition_name with
  | none => .error ()
  | some name =>
    if strContains name "Transition State" then
      .ok ("Transition State",
           if strContains name " - " then afterFirst name " - " else name)
    else if strContains name "Fixed State" then
      .ok ("Fixed State",
           if strContains name " - " then afterFirst name " - " else name)
    else .ok ("Fixed State", name)

/-- The state-marker row of a transition (exporter lines 511-526). -/
def stateMarkerRow (style row_type state_name : String) : Row :=
  { style := some style, row_type := row_type, actor_type := none,
    actor_unit := none, custom_desc := some state_name, custom_duration := none,
    status := none, std_duration := none, group_desc := none,
    group_name := none, valve_name := none }

/-- One wait-condition row (exporter lines 542-557); a missing
`standard_duration` key defaults to `0.0`. -/
def waitCondRow (style : String) (wc : WaitCond) : Row :=
  { style := some style, row_type := "Wait Conditions",
    actor_type := wc.actor_type, actor_unit := none,
    custom_desc := wc.custom_desc, custom_duration := wc.custom_duration,
    status := wc.status,
    std_duration :=
      (match wc.std_duration with
       | .absent => some "0.0"
       | .val v => v),
    group_desc := wc.group_desc, group_name := wc.group_name,
    valve_name := none }

/-- Multi-strategy transition-to-sequence correlation (exporter lines
567-584): identical index in the index dictionary, then index + 1, then the
sequence at the transition's ordinal position in the list. -/
def match_sequence_for (sequences : List SequenceOut)
    (sequences_by_index : List (Nat × SequenceOut))
    (transition_idx transition_index : Nat) : Option SequenceOut :=
  match alookup sequences_by_index transition_index with
  | some s => some s
  | none =>
    match alookup sequences_by_index (transition_index + 1) with
    | some s => some s
    | none => sequences.get? transition_idx

/-- The sequence-name row written for a matched sequence (exporter lines
590-617); `sequence.get('sequence_name', '')` returns the stored value, which
may be `None`. -/
def seqTransStateRow (style : String) (sequence_name : Option String) : Row :=
  { style := some style, row_type := "Transition State", actor_type := none,
    actor_unit := none, custom_desc := sequence_name, custom_duration := none,
    status := none, std_duration := none, group_desc := none,
    group_name := none, valve_name := none }

/-- One action of _write_sequence_actions (exporter lines 663-703): one row
per actuator, `TO`-formatted status, duration `2.0`, MM description and valve
name resolved from the dictionaries. -/
def actionStepRows (style step_name : String)
    (mm_to_description : List (String × String))
    (mm_to_valve : List (String × ValveInfo)) (a : ActionOut) : List Row :=
  let state_formatted := format_state_robust a.state
  let mm_description :=
    match a.mm_number with
    | some mm => (alookup mm_to_description mm).getD ""
    | none => ""
  let valve_name := calculate_valve_name state_formatted a.mm_number mm_to_valve
  a.actuators.map (fun act =>
    { style := some style, row_type := step_name,
      actor_type := some "CylinderUnits", actor_unit := none,
      custom_desc := none, custom_duration := none,
      status := some state_formatted, std_duration := some "2.0",
      group_desc := some mm_description,
      group_name := format_actor_group_name act.description,
      valve_name := valve_name })

/-- SequenceDetailExporter._write_sequence_actions (lines 641-705): one row
per actuator of each action of each step, the steps numbered consecutively
from `Step1`. -/
def sequenceActionRows (style : String)
    (mm_to_description : List (String × String))
    (mm_to_valve : List (String × ValveInfo)) (sq : SequenceOut) : List Row :=
  (sq.steps.enum.map (fun pe =>
    ((pe.2.actions.map (actionStepRows style ("Step" ++ natToStr (pe.1 + 1))
      mm_to_description mm_to_valve)).flatten))).flatten

/-- The rows of one transition: its state-marker row, its wait-condition
rows, and — when a sequence correlates — the sequence-name row followed by
the step/action rows; an uncorrelated transition logs a warning and
contributes no further rows. -/
def transitionRowsFor (style : String) (sequences : List SequenceOut)
    (sequences_by_index : List (Nat × SequenceOut))
    (digital_inputs_data : DigitalInputsData)
    (mm_to_description : List (String × String))
    (mm_to_valve : List (String × ValveInfo))
    (transition_idx : Nat) (t : TransitionOut) : Except Unit (List Row) := do
  let km ← classify_transition_marker t.transition_name
  let marker := stateMarkerRow style km.1 km.2
  let waits := ((t.permissions.map (fun p =>
    expand_permission_to_wait_conditions p digital_inputs_data)).flatten).map
    (waitCondRow style)
  let extra :=
    match match_sequence_for sequences sequences_by_index transition_idx
        t.transition_index with
    | none => []
    | some sq =>
      seqTransStateRow style sq.sequence_name ::
        sequenceActionRows style mm_to_description mm_to_valve sq
  pure (marker :: waits ++ extra)

/-- The header rows framing the section (exporter lines 480-491 and
625-637). -/
def seqHeaderRow (style desc : String) : Row :=
  { style := some style, row_type := "Sequence Header", actor_type := none,
    actor_unit := none, custom_desc := some desc, custom_duration := none,
    status := none, std_duration := none, group_desc := none,
    group_name := none, valve_name := none }

/-- Error-propagating map over a list, the purified form of the imperative
row-writing loop: the first raised error aborts the remainder. -/
def mapMEx {α β : Type} (f : α → Except Unit β) : List α → Except Unit (List β)
  | [] => .ok []
  | a :: t =>
    match f a with
    | .error e => .error e
    | .ok b =>
      match mapMEx f t with
      | .error e => .error e
      | .ok bs => .ok (b :: bs)

/-- SequenceDetailExporter._write_transitions_section: nothing when there are
no transitions; otherwise the section header, each transition's rows in
order, and the end-of-sequence row.  The `Except` propagates the `TypeError`
of the classification. -/
def write_transitions_section (transitions_data : TransitionsData)
    (digital_inputs_data : DigitalInputsData) (model_data : SequencesData)
    (actuator_groups_data : ActuatorGroupsData)
    (valve_mappings_data : ValveMappingsData) : Except Unit (List Row) := do
  if transitions_data.transitions.isEmpty then pure []
  else
    let style := sequenceStyleOf model_data.routine_name
    let mm_to_description := mmDescriptionDict actuator_groups_data
    let mm_to_valve := valve_mappings_data.valve_mappings
    let sequences := model_data.sequences
    let sequences_by_index := dictOf (sequences.map (fun s => (s.sequence_index, s)))
    let blocks ← mapMEx (fun pe =>
      transitionRowsFor style sequences sequences_by_index digital_inputs_data
        mm_to_description mm_to_valve pe.1 pe.2) transitions_data.transitions.enum
    pure (seqHeaderRow style (style ++ " Sequence") :: blocks.flatten ++
      [seqHeaderRow style "End Of Sequence"])

/-! ## Specification views

Derived definitions used to state the claims: the names-only projection of
the sequence scan, the write sequence of the override passes, and the
`MM\d+` shape test. -/

/-- The sequence-name part of `processLine` (the action processing never
touches the name map). -/
def namesLineStep (ns : List (Nat × String)) (line : String) :
    List (Nat × String) :=
  let region := searchO (matchAtRegion ["Sequence"]) line.toList
  let names1 :=
    match region with
    | some p => upsert ns p.1 (trimPy p.2)
    | none => ns
  match region with
  | some _ => names1
  | none =>
    match searchO matchAtSeqName line.toList with
    | some p =>
      if (alookup names1 p.1).isSome then names1
      else names1 ++ [(p.1, trimPy p.2)]
    | none => names1

/-- The sequence-name map recorded by scanning the given lines. -/
def scanNames (lines : List String) : List (Nat × String) :=
  lines.foldl namesLineStep []

/-- The (stripped) texts of the region markers for sequence `idx`, in line
order. -/
def regionTextsFor (lines : List String) (idx : Nat) : List String :=
  lines.filterMap (fun l =>
    match searchO (matchAtRegion ["Sequence"]) l.toList with
    | some p => if p.1 = idx then some (trimPy p.2) else none
    | none => none)

/-- The state writes of one action's override: one `(key, formatted state)`
pair per referenced actuator. -/
def writesOfAction (a : ActionOut) : List (CylKey × String) :=
  a.actuators.map (fun act => ((a.mm_number, act.index), format_state_robust a.state))

/-- The state writes of one sequence, in replay order. -/
def writesOfSeq (sq : SequenceOut) : List (CylKey × String) :=
  ((sq.steps.map (fun st => (st.actions.map writesOfAction).flatten)).flatten)

/-- The state writes of a sequence list, in replay order. -/
def writesOfSeqs (seqs : List SequenceOut) : List (CylKey × String) :=
  (seqs.map writesOfSeq).flatten

/-- The state writes of the model pass: only the first sequence. -/
def modelFirstWrites (model_sequences : List SequenceOut) : List (CylKey × String) :=
  match model_sequences.head? with
  | none => []
  | some sq => writesOfSeq sq

/-- Replaying a write list over a cylinder map with the guarded overwrite. -/
def replayWrites (m : CylMap) (ws : List (CylKey × String)) : CylMap :=
  ws.foldl (fun m w => overwriteState m w.1 w.2) m

/-- The last value written to key `k` by a write list, if any. -/
def lastWriteTo (k : CylKey) (ws : List (CylKey × String)) : Option String :=
  ws.foldl (fun acc w => if w.1 = k then some w.2 else acc) none

/-- Shape test for the regular expression `MM\d+` anchored on the whole
string: `MM` followed by one or more digits. -/
def mmMatchesPat (s : String) : Bool :=
  match s.toList with
  | 'M' :: 'M' :: rest => ¬ rest.isEmpty && rest.all Char.isDigit
  | _ => false

/-! ## Concrete documents used by the claim theorems -/

/-- String in single quotes, as it appears in L5X code text. -/
def sq1 (s : String) : String := String.mk [sqc] ++ s ++ String.mk [sqc]

/-- MM4 routine of the first fixture: actuator 0 is `ClampA`. -/
def mmRoutineA : Routine :=
  { name := "Cm010505_MM4", lines := [],
    rungs := ["MOVE(" ++ sq1 "ClampA" ++ ", MM4Cyls[0].Stg.Name)"] }

/-- MM4 routine of the second fixture: actuator 0 is `ClampB`. -/
def mmRoutineB : Routine :=
  { name := "Cm020505_MM4", lines := [],
    rungs := ["MOVE(" ++ sq1 "ClampB" ++ ", MM4Cyls[0].Stg.Name)"] }

/-- Sequence routine of the second fixture with one MM4 action. -/
def emRoutineB : Routine :=
  { name := "EmStatesAndSequences_R2S",
    lines := ["EmSeqList[0].Step[0].ActionNumber[0] := ActionMM4Work.outActionNum"],
    rungs := [] }

/-- Two fixture programs, each owning its own `_MM4` routine; the second also
owns the sequence routine being processed. -/
def docTwoFixtures : Document :=
  { programs :=
      [{ name := "_010UA1_Fixture_Em0105", routines := [mmRoutineA], tags := [] },
       { name := "_020UA1_Fixture_Em0205", routines := [emRoutineB, mmRoutineB],
         tags := [] }] }

/-- Document whose only program `P1` owns a sequence routine; the program
`Ghost` does not exist. -/
def docScope : Document :=
  { programs :=
      [{ name := "P1",
         routines :=
           [{ name := "EmStatesAndSequences_X",
              lines := ["EmSeqList[0].Step[0].ActionNumber[0] := WaitPart.outActionNum"],
              rungs := [] }],
         tags := [] }] }

/-- Document whose sequence routine carries one transition tagged
`Transition State` by its region marker. -/
def docMarker : Document :=
  { programs :=
      [{ name := "P1",
         routines :=
           [{ name := "EmStatesAndSequences_R2S",
              lines :=
                ["#region Transition State 3 - ClampParts",
                 "EmTransitionStates[3].AutoStartPerms.0 := MM9.stsUp;"],
              rungs := [] }],
         tags := [] }] }

/-- Document with one array tag `MM7Cyls` of dimension 3. -/
def docValid : Document :=
  { programs :=
      [{ name := "P", routines := [],
         tags := [{ name := "MM7Cyls", dataType := "T", dimensions := "3",
                    description := "" }] }] }

/-- Extracted actuators for MM7: indices 0 and 2 only. -/
def actsValid : List Actuator :=
  [{ index := 0, description := "a", mm_number := "MM7" },
   { index := 2, description := "c", mm_number := "MM7" }]

/-- The single MM4 actuator of the C2 scenario. -/
def c2acts : List Actuator :=
  [{ index := 0, description := "ClampCyl", mm_number := "MM4" }]

/-- Actuator enumeration of the C2 scenario: one MM4 group. -/
def c2abm : List (String × List Actuator) := [("MM4", c2acts)]

/-- MM description dictionary of the C2 scenario. -/
def c2desc : List (String × String) := [("MM4", "Clamp Group")]

/-- Valve mapping dictionary of the C2 scenario. -/
def c2valve : List (String × ValveInfo) :=
  [("MM4", { manifold := "_010UA1_KJ1_Hw", valve_work := "1A", valve_home := "1B" })]

/-- Common-routine sequences of the C2 scenario: one action driving MM4
index 0 to `Home`. -/
def c2common : List SequenceOut :=
  [{ sequence_index := 0, sequence_name := none,
     steps := [{ step_index := 0,
                 actions := [{ action_index := 0, action_name := "ActionMM4Home",
                               mm_number := some "MM4", state := some "Home",
                               actuator_count := 1, actuators := c2acts,
                               validation := none }] }] }]

/-- Model-routine sequences of the C2 scenario: the first sequence overrides
MM4 index 0 to `Work`. -/
def c2model : List SequenceOut :=
  [{ sequence_index := 0, sequence_name := some "Mdl",
     steps := [{ step_index := 0,
                 actions := [{ action_index := 0, action_name := "ActionMM4Work",
                               mm_number := some "MM4", state := some "Work",
                               actuator_count := 1, actuators := c2acts,
                               validation := none }] }] }]

/-- The baseline cylinder record of the C2 scenario. -/
def c2base : CylInfo :=
  { actuator_name := "ClampCyl", state := "HOME", mm_number := "MM4",
    description := "Clamp Group", manifold := "_010UA1_KJ1_Hw",
    valve_work := "1A", valve_home := "1B" }

/-- Sequence routine naming sequence 2 by a hardcoded assignment first and a
region marker afterwards. -/
def emRoutineNames : Routine :=
  { name := "EmStatesAndSequences_N",
    lines :=
      ["EmSeqList[2].Name := " ++ sq1 "HardName" ++ ";",
       "#region Sequence 2 - RegionName",
       "EmSeqList[2].Step[0].ActionNumber[0] := Foo.outActionNum"],
    rungs := [] }

/-- Document whose sequence routine names sequence 2 by a hardcoded
assignment first and a region marker afterwards. -/
def docNamesHardFirst : Document :=
  { programs := [{ name := "P1", routines := [emRoutineNames], tags := [] }] }

/-- The same document with the region marker before the hardcoded name. -/
def docNamesRegionFirst : Document :=
  { programs :=
      [{ name := "P1",
         routines :=
           [{ name := "EmStatesAndSequences_N",
              lines :=
                ["#region Sequence 2 - RegionName",
                 "EmSeqList[2].Name := " ++ sq1 "HardName" ++ ";",
                 "EmSeqList[2].Step[0].ActionNumber[0] := Foo.outActionNum"],
              rungs := [] }],
         tags := [] }] }

/-- Sequence routine carrying one grammar-conforming action and one untyped
action. -/
def emRoutineActions : Routine :=
  { name := "EmStatesAndSequences_A",
    lines :=
      ["EmSeqList[0].Step[0].ActionNumber[0] := ActionMM4Work.outActionNum",
       "EmSeqList[0].Step[1].ActionNumber[0] := WaitForPart.outActionNum"],
    rungs := [] }

/-- Document whose sequence routine carries one grammar-conforming action and
one untyped action. -/
def docActions : Document :=
  { programs := [{ name := "P1", routines := [emRoutineActions], tags := [] }] }

/-- Document whose transition has permissions but no `#region` name marker,
so the extracted `transition_name` is `None`. -/
def docNoMarker : Document :=
  { programs :=
      [{ name := "P1",
         routines :=
           [{ name := "EmStatesAndSequences_M",
              lines := ["EmTransitionStates[4].AutoStartPerms.0 := PartPresent;"],
              rungs := [] }],
         tags := [] }] }

/-- Transitions of the C3 witness: index 1 (direct index match), index 7 at
ordinal position 1 (no index or index-plus-one match, resolved by ordinal
position) and index 9 at ordinal position 2 (no strategy applies: its
sequence rows are skipped). -/
def c3td : TransitionsData :=
  { routine_name := "EmStatesAndSequences_R2S", transition_count := 3,
    transitions :=
      [{ transition_index := 1, transition_name := some "Transition State 1 - A",
         permission_count := 0, permissions := [] },
       { transition_index := 7, transition_name := some "B",
         permission_count := 0, permissions := [] },
       { transition_index := 9, transition_name := some "C",
         permission_count := 0, permissions := [] }] }

/-- Model sequences of the C3 witness: indices 1 and 2. -/
def c3md : SequencesData :=
  { routine_name := "EmStatesAndSequences_R2S",
    sequences :=
      [{ sequence_index := 1, sequence_name := some "SeqOne", steps := [] },
       { sequence_index := 2, sequence_name := some "SeqTwo", steps := [] }] }

/-- MM commands of the C8 witness: MM2's outputs are wired to
`MM2_ToWork` / `MM2_ToHome`. -/
def c8mmc : List (String × MMCommands) :=
  [("MM1", { work_cmd := some "MM1_ToWork", home_cmd := some "MM1_ToHome" }),
   ("MM2", { work_cmd := some "MM2_ToWork", home_cmd := some "MM2_ToHome" })]

/-- AOI parameter string of the C8 witness: the 6th/7th parameters name the
identifiers wired to MM2's work/home outputs. -/
def c8params : String :=
  "tag, x, _010_UA1_KJ1_Hw, a, b, Out_MM2_ToWork.DO, Out_MM2_ToHome.DO"

/-! ## Shared lemmas -/

theorem alookup_append_of_isSome {α β : Type} [DecidableEq α]
    {xs : List (α × β)} {k : α} {v : β} (ys : List (α × β))
    (h : alookup xs k = some v) : alookup (xs ++ ys) k = some v := by
  induction xs with
  | nil => simp [alookup] at h
  | cons kv t ih =>
    rw [List.cons_append]
    by_cases hk : kv.1 = k
    · rw [alookup, if_pos hk] at h ⊢
      exact h
    · rw [alookup, if_neg hk] at h ⊢
      exact ih h

theorem alookup_append_of_none {α β : Type} [DecidableEq α]
    {xs : List (α × β)} {k : α} (ys : List (α × β))
    (h : alookup xs k = none) : alookup (xs ++ ys) k = alookup ys k := by
  induction xs with
  | nil => simp
  | cons kv t ih =>
    rw [List.cons_append]
    by_cases hk : kv.1 = k
    · rw [alookup, if_pos hk] at h
      exact absurd h (by simp)
    · rw [alookup, if_neg hk] at h
      rw [alookup, if_neg hk]
      exact ih h

theorem alookup_map_set {α β : Type} [DecidableEq α] (m : List (α × β)) (k : α)
    (f : β → β) (k' : α) :
    alookup (m.map (fun kv => if kv.1 = k then (k, f kv.2) else kv)) k'
      = if k' = k then (alookup m k).map f else alookup m k' := by
  induction m with
  | nil => by_cases h : k' = k <;> simp [alookup, h]
  | cons kv t ih =>
    by_cases h1 : kv.1 = k
    · by_cases h2 : k' = k
      · subst h2
        simp [alookup, h1]
      · have h3 : ¬ k = k' := fun hc => h2 hc.symm
        simp [alookup, h1, h2, h3, ih]
    · by_cases h2 : k' = k
      · subst h2
        simp [alookup, h1, ih]
      · by_cases h3 : kv.1 = k' <;> simp [alookup, h1, h2, h3, ih]

theorem alookup_upsert {α β : Type} [DecidableEq α] (m : List (α × β)) (k : α)
    (v : β) (k' : α) :
    alookup (upsert m k v) k' = if k' = k then some v else alookup m k' := by
  unfold upsert
  by_cases hp : (alookup m k).isSome
  · rw [if_pos hp]
    have hms := alookup_map_set m k (fun _ => v) k'
    by_cases h : k' = k
    · rw [if_pos h]
      obtain ⟨w, hw⟩ := Option.isSome_iff_exists.mp hp
      rw [if_pos h, hw] at hms
      exact hms
    · rw [if_neg h]
      rw [if_neg h] at hms
      exact hms
  · rw [if_neg hp]
    have hn : alookup m k = none := Option.not_isSome_iff_eq_none.mp hp
    by_cases h : k' = k
    · subst h
      rw [if_pos rfl, alookup_append_of_none _ hn]
      simp [alookup]
    · rw [if_neg h]
      cases hv : alookup m k' with
      | some w => exact alookup_append_of_isSome _ hv
      | none =>
        rw [alookup_append_of_none _ hv, alookup,
          if_neg (fun hc : k = k' => h hc.symm)]
        rfl

theorem alookup_overwriteState (m : CylMap) (k : CylKey) (v : String) (k' : CylKey) :
    alookup (overwriteState m k v) k'
      = if k' = k then (alookup m k).map (fun c => { c with state := v })
        else alookup m k' := by
  unfold overwriteState
  by_cases hp : (alookup m k).isSome
  · rw [if_pos hp]
    exact alookup_map_set m k (fun c => { c with state := v }) k'
  · rw [if_neg hp]
    have hn : alookup m k = none := Option.not_isSome_iff_eq_none.mp hp
    by_cases h : k' = k
    · subst h
      rw [if_pos rfl, hn]
      rfl
    · rw [if_neg h]

theorem foldl_inv {σ β : Type} (f : σ → β → σ) (inv : σ → Prop)
    (h : ∀ s b, inv s → inv (f s b)) :
    ∀ (l : List β) (s : σ), inv s → inv (l.foldl f s) := by
  intro l
  induction l with
  | nil => exact fun s hs => hs
  | cons b t ih => exact fun s hs => ih (f s b) (h s b hs)

theorem replay_append (m : CylMap) (ws1 ws2 : List (CylKey × String)) :
    replayWrites m (ws1 ++ ws2) = replayWrites (replayWrites m ws1) ws2 :=
  List.foldl_append ..

theorem foldl_replay {β : Type} (f : CylMap → β → CylMap)
    (g : β → List (CylKey × String))
    (hf : ∀ m b, f m b = replayWrites m (g b)) :
    ∀ (l : List β) (m : CylMap), l.foldl f m = replayWrites m ((l.map g).flatten) := by
  intro l
  induction l with
  | nil => intro m; rfl
  | cons b t ih =>
    intro m
    rw [List.foldl_cons, ih (f m b), hf, List.map_cons, List.flatten_cons,
      replay_append]

theorem applyActionOverride_eq_replay (m : CylMap) (a : ActionOut) :
    applyActionOverride m a = replayWrites m (writesOfAction a) := by
  simp [applyActionOverride, replayWrites, writesOfAction, List.foldl_map]

theorem stepActions_eq_replay (m : CylMap) (st : StepOut) :
    st.actions.foldl applyActionOverride m
      = replayWrites m ((st.actions.map writesOfAction).flatten) :=
  foldl_replay _ _ applyActionOverride_eq_replay st.actions m

theorem seqSteps_eq_replay (m : CylMap) (sq : SequenceOut) :
    sq.steps.foldl (fun m stp => stp.actions.foldl applyActionOverride m) m
      = replayWrites m (writesOfSeq sq) :=
  foldl_replay _ _ stepActions_eq_replay sq.steps m

theorem applySeqOverrides_eq_replay (m : CylMap) (seqs : List SequenceOut) :
    applySeqOverrides m seqs = replayWrites m (writesOfSeqs seqs) :=
  foldl_replay _ _ seqSteps_eq_replay seqs m

theorem applyModelFirstSeq_eq_replay (m : CylMap) (model : List SequenceOut) :
    applyModelFirstSeq m model = replayWrites m (modelFirstWrites model) := by
  unfold applyModelFirstSeq modelFirstWrites
  cases model.head? with
  | none => rfl
  | some sq => exact seqSteps_eq_replay m sq

theorem lastWrite_foldl_init (k : CylKey) :
    ∀ (ws : List (CylKey × String)) (o : Option String),
    ws.foldl (fun acc w => if w.1 = k then some w.2 else acc) o
      = match lastWriteTo k ws with
        | some v => some v
        | none => o := by
  intro ws
  induction ws with
  | nil => intro o; rfl
  | cons w t ih =>
    intro o
    show t.foldl _ (if w.1 = k then some w.2 else o) = _
    rw [ih]
    have hbase : lastWriteTo k (w :: t)
        = match lastWriteTo k t with
          | some v => some v
          | none => if w.1 = k then some w.2 else none := by
      show t.foldl _ (if w.1 = k then some w.2 else none) = _
      rw [ih]
    rw [hbase]
    cases lastWriteTo k t with
    | some v => rfl
    | none => by_cases h : w.1 = k <;> simp [h]

theorem lastWriteTo_cons (k : CylKey) (w : CylKey × String)
    (t : List (CylKey × String)) :
    lastWriteTo k (w :: t)
      = match lastWriteTo k t with
        | some v => some v
        | none => if w.1 = k then some w.2 else none := by
  show t.foldl _ (if w.1 = k then some w.2 else none) = _
  rw [lastWrite_foldl_init]

theorem cylinfo_set_state_self (c : CylInfo) : ({ c with state := c.state } : CylInfo) = c :=
  rfl

theorem stateAt_replay (k : CylKey) :
    ∀ (ws : List (CylKey × String)) (m : CylMap) (c : CylInfo),
    alookup m k = some c →
    alookup (replayWrites m ws) k
      = some { c with state := (lastWriteTo k ws).getD c.state } := by
  intro ws
  induction ws with
  | nil =>
    intro m c h
    simpa [replayWrites, lastWriteTo] using h
  | cons w t ih =>
    intro m c h
    show alookup (replayWrites (overwriteState m w.1 w.2) t) k = _
    by_cases hk : k = w.1
    · have h2 : alookup (overwriteState m w.1 w.2) k
          = some { c with state := w.2 } := by
        rw [alookup_overwriteState, if_pos hk, ← hk, h]
        rfl
      rw [ih _ _ h2, lastWriteTo_cons]
      cases hl : lastWriteTo k t with
      | some v => simp
      | none => simp [if_pos hk.symm]
    · have h2 : alookup (overwriteState m w.1 w.2) k = some c := by
        rw [alookup_overwriteState, if_neg hk]
        exact h
      rw [ih _ _ h2, lastWriteTo_cons]
      cases hl : lastWriteTo k t with
      | some v => simp
      | none => simp [if_neg (fun hc : w.1 = k => hk hc.symm)]

theorem initCylState_state_home (abm : List (String × List Actuator))
    (mdesc : List (String × String)) (mvalve : List (String × ValveInfo)) :
    ∀ (k : CylKey) (c : CylInfo),
    alookup (initCylState abm mdesc mvalve) k = some c → c.state = "HOME" := by
  unfold initCylState
  refine foldl_inv _
    (fun m => ∀ (k : CylKey) (c : CylInfo), alookup m k = some c → c.state = "HOME")
    ?_ abm [] ?_
  · intro m p hm
    refine foldl_inv _
      (fun m => ∀ (k : CylKey) (c : CylInfo), alookup m k = some c → c.state = "HOME")
      ?_ p.2 m hm
    intro m a hma k' c' h'
    rw [alookup_upsert] at h'
    by_cases hk : k' = (some p.1, a.index)
    · rw [if_pos hk] at h'
      cases h'
      rfl
    · rw [if_neg hk] at h'
      exact hma k' c' h'
  · intro k c h
    simp [alookup] at h

/-- A `mapMEx` whose every element succeeds returns the mapped list. -/
theorem mapMEx_ok_of_forall {α β : Type} (f : α → Except Unit β) (g : α → β) :
    ∀ (l : List α), (∀ x ∈ l, f x = .ok (g x)) → mapMEx f l = .ok (l.map g) := by
  intro l
  induction l with
  | nil => intro _; rfl
  | cons a t ih =>
    intro h
    rw [mapMEx, h a (by simp), ih (fun x hx => h x (by simp [hx]))]
    rfl

/-- A `mapMEx` that returns `ok` had every element succeed. -/
theorem mapMEx_ok_forall_mem {α β : Type} (f : α → Except Unit β) :
    ∀ (l : List α) (ys : List β), mapMEx f l = .ok ys → ∀ x ∈ l, ∃ y, f x = .ok y := by
  intro l
  induction l with
  | nil => intro ys _ x hx; simp at hx
  | cons a t ih =>
    intro ys h x hx
    rw [mapMEx] at h
    cases ha : f a with
    | error e => rw [ha] at h; cases h
    | ok y =>
      rw [ha] at h
      cases ht : mapMEx f t with
      | error e => rw [ht] at h; cases h
      | ok ys2 =>
        rcases List.mem_cons.mp hx with hxa | hxt
        · exact ⟨y, hxa ▸ ha⟩
        · exact ih ys2 ht x hxt

/-! ## C1 -/

/-- C1: the claim states that the Extraction Pipeline performs every
per-fixture extraction scoped to that fixture's program, invoking the
Actuator Extractor scoped to the fixture and MM so that results from
different fixtures never mix.  The code violates this: the pipeline invokes
the actuator extractor (and validator) with the whole-document root and no
program name, so the extractor takes the first `_MM4` routine in document
order — here the *first* fixture's routine — and attaches `ClampA` to the
*second* fixture's action, even though the second fixture's own MM4 routine
(found by the program-scoped call the pipeline never makes) yields
`ClampB`. -/
theorem C1_actuator_extraction_unscoped :
    find_actuators_for_mm docTwoFixtures "MM4" (some "_020UA1_Fixture_Em0205")
      = [{ index := 0, description := "ClampB", mm_number := "MM4" }]
    ∧ find_actuators_for_mm docTwoFixtures "MM4" none
      = [{ index := 0, description := "ClampA", mm_number := "MM4" }]
    ∧ ((((extract_sequences_with_actuators docTwoFixtures "EmStatesAndSequences_R2S"
          (some "_020UA1_Fixture_Em0205")).head?.bind (fun sq => sq.steps.head?)).bind
          (fun st => st.actions.head?)).map (fun a => a.actuators))
        = some [{ index := 0, description := "ClampA", mm_number := "MM4" }] := by
  decide

/-! ## C4 -/

/-- C4 counterexample: the claim states that a missing program at a scope
step yields an *empty* result (plus a warning, never a fatal error).  On the
code, extracting with the nonexistent program `Ghost` falls back to the
global search and returns a *non-empty* result; and the digital-input scope
step raises a `TypeError` on every call (a `program_name` keyword its
extractor does not accept), a fatal error independent of any absence. -/
theorem C4_counterexample :
    find_program_by_name docScope "Ghost" = none
    ∧ ¬ extract_sequences_with_actuators docScope "EmStatesAndSequences_X"
        (some "Ghost") = []
    ∧ extract_digital_inputs docScope (some "P1") = .error () :=
  ⟨by decide, by decide, rfl⟩

/-- C4 as amended: a missing *routine* yields an empty result (with a logged
warning); a missing *program* logs a warning and falls back to extracting
from the whole document — the same result as the unscoped call, which can be
non-empty — for both the sequence and the transition extraction; an absent
array tag yields the `unknown` validation rather than an error; and the
digital-input scope step is fatal on every call because the pipeline passes a
keyword argument its extractor does not accept. -/
theorem C4_missing_scope_behaviour (d : Document) (rn : String) (pn : String) :
    (find_program_by_name d pn = none →
      extract_sequences_with_actuators d rn (some pn)
          = extract_sequences_with_actuators d rn none
        ∧ extract_transitions d rn (some pn) = extract_transitions d rn none)
    ∧ (∀ pe, find_program_by_name d pn = some pe →
        (pe.routines.filter (fun r => r.name = rn)).head? = none →
        extract_sequences_with_actuators d rn (some pn) = [])
    ∧ (find_routine_by_name d rn = none →
        extract_sequences_with_actuators d rn none = [])
    ∧ (∀ mm acts, get_tag_dimension d (mm ++ "Cyls") = none →
        (validate_actuators d mm acts).is_valid = none)
    ∧ (∀ pn2 : Option String, extract_digital_inputs d pn2 = .error ()) := by
  refine ⟨fun h => ?_, fun pe hpe hr => ?_, fun h => ?_, fun mm acts h => ?_,
    fun pn2 => rfl⟩
  · constructor
    · simp [extract_sequences_with_actuators, scopedRoutine, h]
    · simp [extract_transitions, find_items_transitions, scopedRoutine, h]
  · simp [extract_sequences_with_actuators, scopedRoutine, hpe, hr]
  · simp [extract_sequences_with_actuators, scopedRoutine, h]
  · simp [validate_actuators, h]

/-- C4 witness: the amended behaviour at the concrete document — extraction
scoped to the missing program `Ghost` equals the global extraction, and a
globally missing routine yields the empty result. -/
theorem C4_missing_scope_behaviour_witness :
    extract_sequences_with_actuators docScope "EmStatesAndSequences_X" (some "Ghost")
      = extract_sequences_with_actuators docScope "EmStatesAndSequences_X" none
    ∧ extract_sequences_with_actuators docScope "NoSuchRoutine" none = []
    ∧ extract_digital_inputs docScope none = .error () := by
  refine ⟨((C4_missing_scope_behaviour docScope "EmStatesAndSequences_X" "Ghost").1
    (by decide)).1, ?_, ?_⟩
  · exact (C4_missing_scope_behaviour docScope "NoSuchRoutine" "Ghost").2.2.1 (by decide)
  · exact (C4_missing_scope_behaviour docScope "X" "Y").2.2.2.2 none

/-! ## C5 -/

/-- C5 counterexample: the claim states that the state-marker kind is
determined by whether the transition's descriptive name was tagged
`Transition State` or `Fixed State` in the source document.  Here the source
line tags the transition `Transition State`, the extractor stores the
stripped name `ClampParts`, and the emitted state-marker row has kind
`Fixed State` — the opposite of what the tagging determines. -/
theorem C5_counterexample :
    searchO (matchAtRegion ["Transition", "State"])
        "#region Transition State 3 - ClampParts".toList = some (3, "ClampParts")
    ∧ ((find_items_transitions docMarker "EmStatesAndSequences_R2S" none).map
        (fun t => t.transition_name)) = [some "ClampParts"]
    ∧ classify_transition_marker (some "ClampParts") = .ok ("Fixed State", "ClampParts")
    ∧ (write_transitions_section
        (extract_transitions docMarker "EmStatesAndSequences_R2S" none)
        { input_count := 0, digital_inputs := [] }
        { routine_name := "EmStatesAndSequences_R2S", sequences := [] }
        { group_count := 0, actuator_groups := [] }
        { mapping_count := 0, valve_mappings := [] }).map
          (fun rows => rows.map Row.row_type)
        = .ok ["Sequence Header", "Fixed State", "Wait Conditions",
               "Sequence Header"] :=
  ⟨by decide, by decide, rfl, rfl⟩

/-- C5 as amended: the state-marker kind is a substring test on the *stored*
descriptive name (which the extractor has already stripped of its
`Transition State <idx> - ` marker prefix): `Transition State` exactly when
the name contains that substring, else `Fixed State` — which is also the
default when neither substring occurs; the displayed state name is the text
after the first ` - ` when the name contains a recognised substring and a
` - `, else the name itself; a `None` name raises instead. -/
theorem C5_classification_by_substring (name : String) :
    classify_transition_marker (some name)
      = .ok (if strContains name "Transition State" then "Transition State"
             else "Fixed State",
             if strContains name "Transition State" ∨ strContains name "Fixed State"
             then (if strContains name " - " then afterFirst name " - " else name)
             else name) := by
  by_cases h1 : strContains name "Transition State" = true
  · simp [classify_transition_marker, h1]
  · by_cases h2 : strContains name "Fixed State" = true
    · simp [classify_transition_marker, h1, h2]
    · simp [classify_transition_marker, h1, h2]

/-! ## C6 -/

/-- C6: for every MM actuator array, the validator's `missing_indices` is the
set difference of the declared index range and the extracted indices
(presented in increasing order), `is_valid` is `some true` exactly when that
difference is empty, and an unresolvable dimension yields the unknown
tri-state (`none`). -/
theorem C6_array_validator (d : Document) (mm : String) (acts : List Actuator) :
    (get_tag_dimension d (mm ++ "Cyls") = none →
      (validate_actuators d mm acts).is_valid = none)
    ∧ (∀ dim : Int, get_tag_dimension d (mm ++ "Cyls") = some dim →
        ((∀ i : Nat, i ∈ (validate_actuators d mm acts).missing_indices ↔
            (i < dim.toNat ∧ ¬ i ∈ acts.map Actuator.index))
         ∧ List.Pairwise (· < ·) (validate_actuators d mm acts).missing_indices
         ∧ ((validate_actuators d mm acts).is_valid = some true ↔
              (validate_actuators d mm acts).missing_indices = []))) := by
  constructor
  · intro h
    simp [validate_actuators, h]
  · intro dim h
    refine ⟨fun i => ?_, ?_, ?_⟩
    · simp [validate_actuators, h, List.mem_filter, List.mem_range]
    · simp only [validate_actuators, h]
      exact List.Pairwise.filter _ (List.pairwise_lt_range _)
    · simp [validate_actuators, h, List.isEmpty_iff]

/-- C6 witness: the validator at a concrete document whose `MM7Cyls` tag
declares dimension 3, with extracted indices 0 and 2: index 1 is missing. -/
theorem C6_array_validator_witness :
    (1 ∈ (validate_actuators docValid "MM7" actsValid).missing_indices ↔
      (1 < (3 : Int).toNat ∧ ¬ 1 ∈ actsValid.map Actuator.index))
    ∧ ¬ (validate_actuators docValid "MM7" actsValid).is_valid = some true := by
  have h := (C6_array_validator docValid "MM7" actsValid).2 3 (by decide)
  refine ⟨h.1 1, fun hv => ?_⟩
  have h1 : 1 ∈ (validate_actuators docValid "MM7" actsValid).missing_indices :=
    (h.1 1).mpr (by decide)
  rw [h.2.2.mp hv] at h1
  exact (List.not_mem_nil 1) h1

/-! ## C8 -/

/-- C8: valve pairs of a manifold-initialization call are assigned 1-based
positions in parameter order.  Part (a): when the pair at loop position `n`
is complete, not fully spare, and matched by some MM's commands, the emitted
mapping carries `<n>A` for a matched non-spare work side and `<n>B` for a
matched non-spare home side, recording `N/A` (absent) otherwise, and the loop
continues at position `n + 1`.  Part (b): the parameter walk starts at the
6th/7th parameters (index 5) with position 1, so those parameters form pair
number 1. -/
theorem C8_valve_positions (mmc : List (String × MMCommands)) :
    (∀ (manifold w h : String) (t : List String) (n : Nat)
        (mm : String) (cmds : MMCommands),
      ¬ w = "" → ¬ h = "" →
      ¬ (strContains w "Spare.DO" && strContains h "Spare.DO") = true →
      mmc.find? (fun p => cmdMatches p.2.work_cmd w || cmdMatches p.2.home_cmd h)
        = some (mm, cmds) →
      valvePairLoop manifold mmc (w :: h :: t) n =
        { mm_number := mm, manifold := manifold,
          valve_work :=
            if cmdMatches cmds.work_cmd w && ¬ strContains w "Spare.DO" then
              natToStr n ++ "A"
            else "N/A",
          valve_home :=
            if cmdMatches cmds.home_cmd h && ¬ strContains h "Spare.DO" then
              natToStr n ++ "B"
            else "N/A" } :: valvePairLoop manifold mmc t (n + 1))
    ∧ (∀ params_str : String,
        7 ≤ ((splitOnCh ',' params_str).map trimPy).length →
        parse_aoi_valvemanifold params_str mmc =
          valvePairLoop ((((splitOnCh ',' params_str).map trimPy).get? 2).getD "")
            mmc (((splitOnCh ',' params_str).map trimPy).drop 5) 1) := by
  constructor
  · intro manifold w h t n mm cmds hw hh hsp hfind
    simp only [valvePairLoop]
    rw [if_neg (fun hc => hc.elim hw hh), if_neg hsp, hfind]
  · intro ps hlen
    simp only [parse_aoi_valvemanifold]
    rw [if_neg (by omega)]

/-- C8 witness: at the concrete call the 6th/7th parameters form pair 1, so
MM2 receives `valve_work = "1A"` and `valve_home = "1B"`; with a spare work
side, the work position is recorded absent (`N/A`) while the home side keeps
`1B`. -/
theorem C8_valve_positions_witness :
    parse_aoi_valvemanifold c8params c8mmc =
      [{ mm_number := "MM2", manifold := "_010_UA1_KJ1_Hw",
         valve_work := "1A", valve_home := "1B" }]
    ∧ valvePairLoop "_010_UA1_KJ1_Hw" c8mmc
        ["Spare.DO_MM2_ToWork_x", "Out_MM2_ToHome.DO"] 1 =
      [{ mm_number := "MM2", manifold := "_010_UA1_KJ1_Hw",
         valve_work := "N/A", valve_home := "1B" }] := by
  constructor
  · rw [(C8_valve_positions c8mmc).2 c8params (by decide)]
    rw [show (((splitOnCh ',' c8params).map trimPy).drop 5)
        = ["Out_MM2_ToWork.DO", "Out_MM2_ToHome.DO"] from by decide]
    rw [(C8_valve_positions c8mmc).1 _ "Out_MM2_ToWork.DO" "Out_MM2_ToHome.DO" [] 1
      "MM2" { work_cmd := some "MM2_ToWork", home_cmd := some "MM2_ToHome" }
      (by decide) (by decide) (by decide) (by decide)]
    decide
  · rw [(C8_valve_positions c8mmc).1 _ "Spare.DO_MM2_ToWork_x" "Out_MM2_ToHome.DO" [] 1
      "MM2" { work_cmd := some "MM2_ToWork", home_cmd := some "MM2_ToHome" }
      (by decide) (by decide) (by decide) (by decide)]
    decide

/-! ## C2 -/

/-- C2: the state reconstruction is a last-writer-wins fold.  Every actuator
of the baseline enumeration starts at `HOME`; the final reconstructed record
of any enumerated key is the baseline record with its state replaced by the
last write to that key in the concatenation of the common pass's writes (all
sequences, in order) and the model pass's writes (only the first sequence),
defaulting to `HOME` when no pass writes it; and the start-condition row of
that record shows the `AT`-formatted final state.  In particular a model
first-sequence `WORK` override wins over a common-pass `HOME` write (the
witness instantiates exactly that scenario and reads `AT WORK`). -/
theorem C2_state_reconstruction_lww
    (abm : List (String × List Actuator)) (mdesc : List (String × String))
    (mvalve : List (String × ValveInfo)) (C M : List SequenceOut)
    (k : CylKey) (c : CylInfo)
    (hk : alookup (initCylState abm mdesc mvalve) k = some c) :
    c.state = "HOME"
    ∧ alookup (finalCylState abm mdesc mvalve C M) k
        = some { c with state :=
            (lastWriteTo k (writesOfSeqs C ++ modelFirstWrites M)).getD "HOME" }
    ∧ (startConditionCylRow mvalve
          (k, { c with state :=
            (lastWriteTo k (writesOfSeqs C ++ modelFirstWrites M)).getD "HOME" })).status
        = some (format_start_condition_state
            ((lastWriteTo k (writesOfSeqs C ++ modelFirstWrites M)).getD "HOME")) := by
  have hhome := initCylState_state_home abm mdesc mvalve k c hk
  refine ⟨hhome, ?_, rfl⟩
  have hfin : finalCylState abm mdesc mvalve C M
      = replayWrites (initCylState abm mdesc mvalve)
          (writesOfSeqs C ++ modelFirstWrites M) := by
    rw [finalCylState, applySeqOverrides_eq_replay, applyModelFirstSeq_eq_replay,
      replay_append]
  rw [hfin, stateAt_replay k _ _ _ hk, hhome]

/-- C2 witness: in the concrete scenario the common pass writes `TO HOME` to
MM4 index 0 and the model routine's first sequence then writes `TO WORK`;
the final record keeps state `TO WORK` and the emitted start-condition row
status reads `AT WORK`. -/
theorem C2_state_reconstruction_lww_witness :
    alookup (finalCylState c2abm c2desc c2valve c2common c2model)
        (some "MM4", 0) = some { c2base with state := "TO WORK" }
    ∧ (startConditionRows c2valve
        (finalCylState c2abm c2desc c2valve c2common c2model)).map Row.status
      = [some "AT WORK"] := by
  have h := C2_state_reconstruction_lww c2abm c2desc c2valve c2common c2model
    (some "MM4", 0) c2base (by decide)
  have hlast : lastWriteTo (some "MM4", 0)
      (writesOfSeqs c2common ++ modelFirstWrites c2model) = some "TO WORK" := by
    decide
  refine ⟨?_, by decide⟩
  have h2 := h.2.1
  rw [hlast] at h2
  exact h2

/-! ## Support lemmas for C7 -/

theorem foldl_max_le_init : ∀ (l : List Nat) (b : Nat), b ≤ l.foldl max b := by
  intro l
  induction l with
  | nil => exact fun b => Nat.le_refl b
  | cons x t ih => exact fun b => Nat.le_trans (Nat.le_max_left b x) (ih (max b x))

theorem le_foldl_max : ∀ (l : List Nat) (b a : Nat), a ∈ l → a ≤ l.foldl max b := by
  intro l
  induction l with
  | nil => intro b a ha; simp at ha
  | cons x t ih =>
    intro b a ha
    rcases List.mem_cons.mp ha with h | h
    · subst h
      exact Nat.le_trans (Nat.le_max_right b a) (foldl_max_le_init t (max b a))
    · exact ih (max b x) a h

theorem mem_sortedDistinct_iff (l : List Nat) (a : Nat) :
    a ∈ sortedDistinct l ↔ a ∈ l := by
  rw [sortedDistinct, List.mem_filter]
  constructor
  · intro h
    simpa using h.2
  · intro h
    refine ⟨List.mem_range.mpr ?_, by simpa using h⟩
    exact Nat.lt_succ_of_le (le_foldl_max l 0 a h)

theorem mem_of_alookup_eq_some {α β : Type} [DecidableEq α]
    {m : List (α × β)} {k : α} {v : β} (h : alookup m k = some v) : (k, v) ∈ m := by
  induction m with
  | nil => simp [alookup] at h
  | cons kv t ih =>
    by_cases hk : kv.1 = k
    · rw [alookup, if_pos hk] at h
      cases h
      have hkv : (k, kv.2) = kv := by rw [← hk]
      rw [hkv]
      exact List.mem_cons_self kv t
    · rw [alookup, if_neg hk] at h
      exact List.mem_cons_of_mem _ (ih h)

theorem alookup_isSome_of_mem {α β : Type} [DecidableEq α]
    {m : List (α × β)} {k : α} {v : β} (h : (k, v) ∈ m) :
    (alookup m k).isSome := by
  induction m with
  | nil => simp at h
  | cons kv t ih =>
    rcases List.mem_cons.mp h with h1 | h1
    · rw [alookup, if_pos (by rw [← h1])]
      rfl
    · by_cases hk : kv.1 = k
      · rw [alookup, if_pos hk]; rfl
      · rw [alookup, if_neg hk]; exact ih h1

theorem mkActionData_action_name (d : Document) (n : String) :
    (mkActionData d n).action_name = n := by
  rw [mkActionData]
  cases parse_action_name n <;> rfl

theorem string_mk_ne_empty {l : List Char} (h : ¬ l = []) : ¬ String.mk l = "" := by
  intro hc
  exact h (congrArg String.data hc)

theorem mmMatchesPat_mk (ds : List Char) (h1 : ¬ ds = [])
    (h2 : ∀ x ∈ ds, x.isDigit = true) :
    mmMatchesPat (String.mk ('M' :: 'M' :: ds)) = true := by
  rw [mmMatchesPat]
  simp [h1, List.isEmpty_iff, List.all_eq_true]
  exact h2

/-- Every successful `parse_action_name` yields an `MM\d+`-shaped group and a
nonempty state. -/
theorem parse_action_name_shape (n mm st : String)
    (h : parse_action_name n = some (mm, st)) :
    mmMatchesPat mm = true ∧ ¬ st = "" := by
  rw [parse_action_name] at h
  cases hm : matchLit "ActionMM".toList n.toList with
  | none => rw [hm] at h; cases h
  | some t =>
    rw [hm] at h
    simp only [] at h
    rw [List.span_eq_take_drop] at h
    have hall : ∀ x ∈ t.takeWhile Char.isDigit, x.isDigit = true :=
      fun x hx => List.mem_takeWhile_imp hx
    simp only [] at h
    split at h
    · cases h
    · next he =>
      have hne : ¬ t.takeWhile Char.isDigit = [] := by
        intro hc; rw [hc] at he; exact he rfl
      split at h
      · split at h
        · next hlen =>
          cases h
          refine ⟨mmMatchesPat_mk _ ?_ ?_, string_mk_ne_empty ?_⟩
          · rw [← List.length_eq_zero, List.length_dropLast]
            omega
          · exact fun x hx => hall x (List.dropLast_sublist _ |>.subset hx)
          · rw [← List.length_eq_zero, List.length_drop]
            omega
        · cases h
      · split at h
        · cases h
          exact ⟨mmMatchesPat_mk _ hne hall, string_mk_ne_empty (by simp)⟩
        · split at h
          · next hlen =>
            cases h
            refine ⟨mmMatchesPat_mk _ ?_ ?_, string_mk_ne_empty ?_⟩
            · rw [← List.length_eq_zero, List.length_dropLast]
              omega
            · exact fun x hx => hall x (List.dropLast_sublist _ |>.subset hx)
            · rw [← List.length_eq_zero, List.length_drop]
              omega
          · cases h

theorem mem_upsert {α β : Type} [DecidableEq α] {m : List (α × β)} {k : α}
    {v : β} {x : α × β} (h : x ∈ upsert m k v) : x ∈ m ∨ x = (k, v) := by
  rw [upsert] at h
  by_cases hp : (alookup m k).isSome
  · rw [if_pos hp] at h
    rcases List.mem_map.mp h with ⟨kv, hkv, hx⟩
    by_cases hk : kv.1 = k
    · rw [if_pos hk] at hx
      exact Or.inr hx.symm
    · rw [if_neg hk] at hx
      exact Or.inl (hx ▸ hkv)
  · rw [if_neg hp] at h
    rcases List.mem_append.mp h with h1 | h1
    · exact Or.inl h1
    · exact Or.inr (by simpa using h1)

theorem alookup_upsert_self {α β : Type} [DecidableEq α] (m : List (α × β))
    (k : α) (v : β) : alookup (upsert m k v) k = some v := by
  rw [alookup_upsert, if_pos rfl]

theorem upsert_isSome_pres {α β : Type} [DecidableEq α] (m : List (α × β))
    (k k' : α) (v : β) (h : (alookup m k).isSome) :
    (alookup (upsert m k' v) k).isSome := by
  rw [alookup_upsert]
  by_cases hk : k = k'
  · rw [if_pos hk]
    rfl
  · rw [if_neg hk]
    exact h

theorem foldl_upsert_isSome_pres {β α γ : Type} [DecidableEq α]
    (key : β → α) (val : β → γ) (k : α) :
    ∀ (ql : List β) (m : List (α × γ)), (alookup m k).isSome →
      (alookup (ql.foldl (fun m q => upsert m (key q) (val q)) m) k).isSome :=
  fun ql m h =>
    foldl_inv (fun m q => upsert m (key q) (val q))
      (fun m => (alookup m k).isSome)
      (fun m q hm => upsert_isSome_pres m k (key q) (val q) hm) ql m h

theorem foldl_upsert_present {β α γ : Type} [DecidableEq α]
    (key : β → α) (val : β → γ) :
    ∀ (ql : List β) (m : List (α × γ)) (q : β), q ∈ ql →
      (alookup (ql.foldl (fun m q => upsert m (key q) (val q)) m)
        (key q)).isSome := by
  intro ql
  induction ql with
  | nil => intro m q hq; simp at hq
  | cons q0 t ih =>
    intro m q hq
    rw [List.foldl_cons]
    rcases List.mem_cons.mp hq with h1 | h1
    · subst h1
      exact foldl_upsert_isSome_pres key val (key q) t _
        (by simp [alookup_upsert_self])
    · exact ih _ q h1

theorem upsert_mem_inv {α β : Type} [DecidableEq α] (P : β → Prop)
    {m : List (α × β)} {k : α} {v : β}
    (hm : ∀ kv ∈ m, P kv.2) (hv : P v) : ∀ kv ∈ upsert m k v, P kv.2 := by
  intro kv hkv
  rcases mem_upsert hkv with h | h
  · exact hm kv h
  · rw [h]
    exact hv

theorem processLine_acts (d : Document) (st : ScanState) (line : String) :
    (processLine d st line).acts
      = (findAll matchAtActionAssign line.toList).foldl
          (fun m q => upsert m (q.1, q.2.1, q.2.2.1) (mkActionData d q.2.2.2))
          st.acts := rfl

theorem scan_acts_inv (d : Document) (P : ActionData → Prop)
    (hP : ∀ n, P (mkActionData d n)) :
    ∀ (lines : List String) (st : ScanState),
      (∀ kv ∈ st.acts, P kv.2) →
      ∀ kv ∈ (lines.foldl (processLine d) st).acts, P kv.2 := by
  intro lines
  induction lines with
  | nil => intro st h; exact h
  | cons line t ih =>
    intro st h
    rw [List.foldl_cons]
    apply ih
    rw [processLine_acts]
    exact foldl_inv
      (fun m (q : Nat × Nat × Nat × String) =>
        upsert m (q.1, q.2.1, q.2.2.1) (mkActionData d q.2.2.2))
      (fun m => ∀ kv ∈ m, P kv.2)
      (fun m q hm => upsert_mem_inv P hm (hP q.2.2.2)) _ st.acts h

theorem scan_isSome_pres (d : Document) (k : AKey) :
    ∀ (lines : List String) (st : ScanState),
      (alookup st.acts k).isSome →
      (alookup (lines.foldl (processLine d) st).acts k).isSome := by
  intro lines st h
  refine foldl_inv (processLine d)
    (fun st => (alookup st.acts k).isSome) ?_ lines st h
  intro s line hs
  rw [processLine_acts]
  exact foldl_upsert_isSome_pres _ _ k _ s.acts hs

theorem scan_key_present (d : Document) :
    ∀ (lines : List String) (st : ScanState) (line : String)
      (q : Nat × Nat × Nat × String),
      line ∈ lines → q ∈ findAll matchAtActionAssign line.toList →
      (alookup (lines.foldl (processLine d) st).acts
        (q.1, q.2.1, q.2.2.1)).isSome := by
  intro lines
  induction lines with
  | nil => intro st line q h; simp at h
  | cons l0 t ih =>
    intro st line q hline hq
    rw [List.foldl_cons]
    rcases List.mem_cons.mp hline with h1 | h1
    · subst h1
      refine scan_isSome_pres d (q.1, q.2.1, q.2.2.1) t _ ?_
      rw [processLine_acts]
      exact foldl_upsert_present (fun q => (q.1, q.2.1, q.2.2.1))
        (fun q => mkActionData d q.2.2.2) _ st.acts q hq
    · exact ih (processLine d st l0) line q h1 hq

theorem mkActionData_fields (d : Document) (n : String) :
    ((mkActionData d n).mm_number = (parse_action_name n).map Prod.fst)
    ∧ ((mkActionData d n).state = (parse_action_name n).map Prod.snd)
    ∧ (parse_action_name n = none → (mkActionData d n).actuators = []) := by
  rw [mkActionData]
  cases hp : parse_action_name n with
  | none => exact ⟨rfl, rfl, fun _ => rfl⟩
  | some ms => exact ⟨rfl, rfl, fun hc => nomatch hc⟩

theorem format_key_mem (m : List (AKey × ActionData))
    (names : List (Nat × String)) (k : AKey)
    (h : (alookup m k).isSome) :
    ∃ sq ∈ format_sequences m names, sq.sequence_index = k.1 ∧
    ∃ stp ∈ sq.steps, stp.step_index = k.2.1 ∧
    ∃ a ∈ stp.actions, a.action_index = k.2.2 := by
  obtain ⟨ad, had⟩ := Option.isSome_iff_exists.mp h
  have hmem : (k, ad) ∈ m := mem_of_alookup_eq_some had
  obtain ⟨s, t, ai⟩ := k
  refine ⟨_, List.mem_map.mpr ⟨s, ?_, rfl⟩, rfl, ?_⟩
  · rw [mem_sortedDistinct_iff]
    exact List.mem_map.mpr ⟨((s, t, ai), ad), hmem, rfl⟩
  · refine ⟨_, List.mem_map.mpr ⟨t, ?_, rfl⟩, rfl, ?_⟩
    · rw [mem_sortedDistinct_iff]
      exact List.mem_map.mpr
        ⟨((s, t, ai), ad), List.mem_filter.mpr ⟨hmem, by simp⟩, rfl⟩
    · refine ⟨_, List.mem_map.mpr ⟨ai, ?_, rfl⟩, rfl⟩
      rw [mem_sortedDistinct_iff]
      exact List.mem_map.mpr
        ⟨((s, t, ai), ad), List.mem_filter.mpr ⟨hmem, by simp⟩, rfl⟩

/-- C7: every action record produced by the pipeline carries `mm_number` and
`state` exactly when its name parses under the `Action(MM\d+)(\w+)` grammar —
in that case both are non-null and the MM group matches `MM\d+` — and a
non-conforming name still yields a record, with null `mm_number`, null
`state` and an empty actuator list; moreover every action-assignment match in
the scanned routine gives rise to an output record at its sequence / step /
action indices. -/
theorem C7_action_name_grammar (d : Document) (rn : String)
    (pn : Option String) (r : Routine)
    (hr : scopedRoutine d rn pn = some r) :
    (∀ sq ∈ extract_sequences_with_actuators d rn pn, ∀ stp ∈ sq.steps,
      ∀ a ∈ stp.actions,
      (∀ mm st, parse_action_name a.action_name = some (mm, st) →
        a.mm_number = some mm ∧ a.state = some st ∧ mmMatchesPat mm = true)
      ∧ (parse_action_name a.action_name = none →
        a.mm_number = none ∧ a.state = none ∧ a.actuators = []))
    ∧ (∀ line ∈ r.lines, ∀ q ∈ findAll matchAtActionAssign line.toList,
      ∃ sq ∈ extract_sequences_with_actuators d rn pn,
        sq.sequence_index = q.1 ∧
      ∃ stp ∈ sq.steps, stp.step_index = q.2.1 ∧
      ∃ a ∈ stp.actions, a.action_index = q.2.2.1) := by
  have hout : extract_sequences_with_actuators d rn pn
      = format_sequences
          (r.lines.foldl (processLine d) { names := [], acts := [] }).acts
          (r.lines.foldl (processLine d) { names := [], acts := [] }).names := by
    rw [extract_sequences_with_actuators, hr]
  constructor
  · intro sq hsq stp hstp a ha
    rw [hout] at hsq
    have hinv : ∀ kv ∈ (r.lines.foldl (processLine d)
        { names := [], acts := [] }).acts, ∃ n, kv.2 = mkActionData d n :=
      scan_acts_inv d (fun ad => ∃ n, ad = mkActionData d n)
        (fun n => ⟨n, rfl⟩) r.lines _ (fun kv hkv => nomatch hkv)
    rcases List.mem_map.mp hsq with ⟨s, hs, hsqe⟩
    subst hsqe
    rcases List.mem_map.mp hstp with ⟨t, ht, hstpe⟩
    subst hstpe
    rcases List.mem_map.mp ha with ⟨ai, hai, hae⟩
    subst hae
    cases hl : alookup (r.lines.foldl (processLine d)
        { names := [], acts := [] }).acts (s, t, ai) with
    | none =>
      refine ⟨fun mm st hp => ?_, fun _ => ⟨rfl, rfl, rfl⟩⟩
      have hp2 : (none : Option (String × String)) = some (mm, st) := hp
      cases hp2
    | some ad0 =>
      obtain ⟨n, hn⟩ := hinv ((s, t, ai), ad0) (mem_of_alookup_eq_some hl)
      have hn2 : ad0 = mkActionData d n := hn
      subst hn2
      constructor
      · intro mm st hp
        have hane : (mkActionOut ai
            (Option.getD (some (mkActionData d n)) default)).action_name = n :=
          mkActionData_action_name d n
        rw [hane] at hp
        have hshape := parse_action_name_shape n mm st hp
        refine ⟨?_, ?_, hshape.1⟩
        · show (mkActionData d n).mm_number = some mm
          rw [(mkActionData_fields d n).1, hp]
          rfl
        · show (mkActionData d n).state = some st
          rw [(mkActionData_fields d n).2.1, hp]
          rfl
      · intro hp
        have hane2 : (mkActionOut ai
            (Option.getD (some (mkActionData d n)) default)).action_name = n :=
          mkActionData_action_name d n
        rw [hane2] at hp
        have hp2 : parse_action_name n = none := hp
        refine ⟨?_, ?_, ?_⟩
        · show (mkActionData d n).mm_number = none
          rw [(mkActionData_fields d n).1, hp2]
          rfl
        · show (mkActionData d n).state = none
          rw [(mkActionData_fields d n).2.1, hp2]
          rfl
        · exact (mkActionData_fields d n).2.2 hp2
  · intro line hline q hq
    rw [hout]
    exact format_key_mem _ _ (q.1, q.2.1, q.2.2.1)
      (scan_key_present d r.lines { names := [], acts := [] } line q hline hq)

theorem C7_action_name_grammar_witness :
    scopedRoutine docActions "EmStatesAndSequences_A" none
        = some emRoutineActions
    ∧ ((∀ sq ∈ extract_sequences_with_actuators docActions
          "EmStatesAndSequences_A" none, ∀ stp ∈ sq.steps,
        ∀ a ∈ stp.actions,
        (∀ mm st, parse_action_name a.action_name = some (mm, st) →
          a.mm_number = some mm ∧ a.state = some st ∧ mmMatchesPat mm = true)
        ∧ (parse_action_name a.action_name = none →
          a.mm_number = none ∧ a.state = none ∧ a.actuators = []))
      ∧ (∀ line ∈ emRoutineActions.lines,
          ∀ q ∈ findAll matchAtActionAssign line.toList,
        ∃ sq ∈ extract_sequences_with_actuators docActions
            "EmStatesAndSequences_A" none,
          sq.sequence_index = q.1 ∧
        ∃ stp ∈ sq.steps, stp.step_index = q.2.1 ∧
        ∃ a ∈ stp.actions, a.action_index = q.2.2.1)) :=
  ⟨by decide,
   C7_action_name_grammar docActions "EmStatesAndSequences_A" none
     emRoutineActions (by decide)⟩

/-! ## C9 -/

theorem getLast?_cons_ne_nil {α : Type} (a : α) {l : List α} (h : ¬ l = []) :
    (a :: l).getLast? = l.getLast? := by
  cases l with
  | nil => exact absurd rfl h
  | cons b t => exact List.getLast?_cons_cons ..

/-- The scan's name map only depends on the name part of each line. -/
theorem scan_names_proj (d : Document) :
    ∀ (lines : List String) (st : ScanState),
    (lines.foldl (processLine d) st).names = lines.foldl namesLineStep st.names := by
  intro lines
  induction lines with
  | nil => intro st; rfl
  | cons l ls ih =>
    intro st
    rw [List.foldl_cons, List.foldl_cons, ih]
    rfl

/-- Without a region marker for `idx`, later lines never change an
already-recorded name for `idx`. -/
theorem scan_names_stable (idx : Nat) :
    ∀ (lines : List String) (ns : List (Nat × String)) (v : String),
    alookup ns idx = some v → regionTextsFor lines idx = [] →
    alookup (lines.foldl namesLineStep ns) idx = some v := by
  intro lines
  induction lines with
  | nil => intro ns v h _; exact h
  | cons l ls ih =>
    intro ns v h hreg
    simp only [regionTextsFor, List.filterMap_cons] at hreg
    rw [List.foldl_cons]
    cases hm : searchO (matchAtRegion ["Sequence"]) l.toList with
    | some p =>
      simp only [hm] at hreg
      by_cases hpi : p.1 = idx
      · rw [if_pos hpi] at hreg
        exact absurd hreg (by simp)
      · rw [if_neg hpi] at hreg
        refine ih _ v ?_ hreg
        show alookup (namesLineStep ns l) idx = some v
        rw [namesLineStep, hm]
        show alookup (upsert ns p.1 (trimPy p.2)) idx = some v
        rw [alookup_upsert, if_neg (fun hc : idx = p.1 => hpi hc.symm)]
        exact h
    | none =>
      simp only [hm] at hreg
      refine ih _ v ?_ hreg
      show alookup (namesLineStep ns l) idx = some v
      rw [namesLineStep, hm]
      cases hn : searchO matchAtSeqName l.toList with
      | some p =>
        show alookup (if (alookup ns p.1).isSome then ns
          else ns ++ [(p.1, trimPy p.2)]) idx = some v
        by_cases hps : (alookup ns p.1).isSome
        · rw [if_pos hps]; exact h
        · rw [if_neg hps]
          exact alookup_append_of_isSome _ h
      | none => exact h

/-- With at least one region marker for `idx`, the recorded name is the last
region marker's text, whatever hardcoded names or other lines surround it. -/
theorem scan_names_region (idx : Nat) :
    ∀ (lines : List String) (ns : List (Nat × String)),
    ¬ regionTextsFor lines idx = [] →
    alookup (lines.foldl namesLineStep ns) idx
      = (regionTextsFor lines idx).getLast? := by
  intro lines
  induction lines with
  | nil => intro ns hreg; exact absurd rfl hreg
  | cons l ls ih =>
    intro ns hreg
    simp only [regionTextsFor, List.filterMap_cons] at hreg ⊢
    rw [List.foldl_cons]
    cases hm : searchO (matchAtRegion ["Sequence"]) l.toList with
    | some p =>
      simp only [hm] at hreg ⊢
      by_cases hpi : p.1 = idx
      · rw [if_pos hpi] at hreg ⊢
        by_cases ht : regionTextsFor ls idx = []
        · have ht2 : List.filterMap (fun l =>
              match searchO (matchAtRegion ["Sequence"]) l.toList with
              | some p => if p.1 = idx then some (trimPy p.2) else none
              | none => none) ls = [] := ht
          rw [ht2]
          have hset : alookup (namesLineStep ns l) idx = some (trimPy p.2) := by
            rw [namesLineStep, hm]
            show alookup (upsert ns p.1 (trimPy p.2)) idx = some (trimPy p.2)
            rw [alookup_upsert, if_pos hpi.symm]
          rw [scan_names_stable idx ls _ _ hset ht]
          rfl
        · have ht2 : ¬ List.filterMap (fun l =>
              match searchO (matchAtRegion ["Sequence"]) l.toList with
              | some p => if p.1 = idx then some (trimPy p.2) else none
              | none => none) ls = [] := ht
          rw [getLast?_cons_ne_nil _ ht2]
          have hns : namesLineStep ns l = upsert ns p.1 (trimPy p.2) := by
            rw [namesLineStep, hm]
          rw [hns]
          exact ih _ ht
      · rw [if_neg hpi] at hreg ⊢
        have hns : namesLineStep ns l = upsert ns p.1 (trimPy p.2) := by
          rw [namesLineStep, hm]
        rw [hns]
        exact ih _ hreg
    | none =>
      simp only [hm] at hreg ⊢
      exact ih _ hreg

/-- C9: for every sequence index of a routine, if a `#region` sequence-name
marker exists for that index, the recorded name — and the `sequence_name` of
every extracted sequence with that index — is the (last) region marker's
text, regardless of where any hardcoded `Name` assignment appears. -/
theorem C9_region_marker_precedence (d : Document) (rn : String)
    (pn : Option String) (r : Routine) (idx : Nat)
    (hr : scopedRoutine d rn pn = some r)
    (hreg : ¬ regionTextsFor r.lines idx = []) :
    alookup (scanNames r.lines) idx = (regionTextsFor r.lines idx).getLast?
    ∧ ∀ sq ∈ extract_sequences_with_actuators d rn pn, sq.sequence_index = idx →
        sq.sequence_name = (regionTextsFor r.lines idx).getLast? := by
  have hmap : alookup (scanNames r.lines) idx
      = (regionTextsFor r.lines idx).getLast? :=
    scan_names_region idx r.lines [] hreg
  refine ⟨hmap, fun sq hsq hidx => ?_⟩
  rw [extract_sequences_with_actuators, hr] at hsq
  simp only [format_sequences] at hsq
  obtain ⟨s, _, hfs⟩ := List.mem_map.mp hsq
  have hs : s = idx := by rw [← hidx, ← hfs]
  have hname : sq.sequence_name
      = alookup (r.lines.foldl (processLine d) { names := [], acts := [] }).names s := by
    rw [← hfs]
  rw [hname, hs, scan_names_proj]
  exact hmap

/-- C9 witness: with a hardcoded name before the region marker and with it
after, the recorded and extracted name for sequence 2 is the region marker's
text `RegionName`. -/
theorem C9_region_marker_precedence_witness :
    alookup (scanNames emRoutineNames.lines) 2 = some "RegionName"
    ∧ (extract_sequences_with_actuators docNamesHardFirst
        "EmStatesAndSequences_N" none).map SequenceOut.sequence_name
      = [some "RegionName"]
    ∧ (extract_sequences_with_actuators docNamesRegionFirst
        "EmStatesAndSequences_N" none).map SequenceOut.sequence_name
      = [some "RegionName"] := by
  have h := C9_region_marker_precedence docNamesHardFirst "EmStatesAndSequences_N"
    none emRoutineNames 2 (by decide) (by decide)
  refine ⟨?_, by decide, by decide⟩
  rw [h.1]
  decide

/-! ## C10 -/

theorem exists_mem_enumFrom {α : Type} (x : α) :
    ∀ (l : List α) (j : Nat), x ∈ l → ∃ i, (i, x) ∈ l.enumFrom j := by
  intro l
  induction l with
  | nil => intro j h; simp at h
  | cons a t ih =>
    intro j h
    rcases List.mem_cons.mp h with h1 | h1
    · refine ⟨j, ?_⟩
      rw [h1]
      exact List.mem_cons_self _ _
    · obtain ⟨i, hi⟩ := ih (j + 1) h1
      exact ⟨i, List.mem_cons_of_mem _ hi⟩

theorem exists_mem_enum {α : Type} (x : α) (l : List α) (h : x ∈ l) :
    ∃ i, (i, x) ∈ l.enum :=
  exists_mem_enumFrom x l 0 h

/-- A `mapMEx` over a list containing a failing element fails. -/
theorem mapMEx_error_of_mem {α β : Type} (f : α → Except Unit β) (l : List α)
    (x : α) (hx : x ∈ l) (hf : f x = .error ()) :
    mapMEx f l = .error () := by
  cases hm : mapMEx f l with
  | error e => cases e; rfl
  | ok ys =>
    obtain ⟨y, hy⟩ := mapMEx_ok_forall_mem f l ys hm x hx
    rw [hf] at hy
    cases hy

/-- C10: the reconstruction requires every transition to carry a non-null
descriptive name: a transition extracted without a `#region` marker stores
`transition_name = none`, the state-marker classification on that stored
value is the `TypeError` case, and the whole transitions section errors out
instead of emitting rows. -/
theorem C10_null_transition_name (d : Document) (rn : String)
    (pn : Option String) (did : DigitalInputsData) (md : SequencesData)
    (agd : ActuatorGroupsData) (vmd : ValveMappingsData) (t : TransitionOut)
    (ht : t ∈ (extract_transitions d rn pn).transitions)
    (hn : t.transition_name = none) :
    classify_transition_marker t.transition_name = .error ()
    ∧ write_transitions_section (extract_transitions d rn pn) did md agd vmd
        = .error () := by
  refine ⟨by rw [hn]; rfl, ?_⟩
  have hne : ¬ (extract_transitions d rn pn).transitions.isEmpty = true := by
    intro hc
    rw [List.isEmpty_iff] at hc
    rw [hc] at ht
    cases ht
  obtain ⟨i, hi⟩ := exists_mem_enum t (extract_transitions d rn pn).transitions ht
  have hferr : (fun pe : Nat × TransitionOut =>
      transitionRowsFor (sequenceStyleOf md.routine_name) md.sequences
        (dictOf (md.sequences.map (fun s => (s.sequence_index, s)))) did
        (mmDescriptionDict agd) vmd.valve_mappings pe.1 pe.2) (i, t)
      = .error () := by
    show transitionRowsFor (sequenceStyleOf md.routine_name) md.sequences
        (dictOf (md.sequences.map (fun s => (s.sequence_index, s)))) did
        (mmDescriptionDict agd) vmd.valve_mappings i t = .error ()
    rw [transitionRowsFor, hn]
    rfl
  have hmap := mapMEx_error_of_mem
    (fun pe : Nat × TransitionOut =>
      transitionRowsFor (sequenceStyleOf md.routine_name) md.sequences
        (dictOf (md.sequences.map (fun s => (s.sequence_index, s)))) did
        (mmDescriptionDict agd) vmd.valve_mappings pe.1 pe.2)
    _ _ hi hferr
  rw [write_transitions_section, if_neg hne]
  simp only []
  rw [hmap]
  rfl

theorem C10_null_transition_name_witness :
    ({ transition_index := 4, transition_name := none, permission_count := 1,
       permissions := [{ permission_index := 0,
                         permission_value := "PartPresent", comment := "" }] }
      : TransitionOut)
      ∈ (extract_transitions docNoMarker "EmStatesAndSequences_M"
          none).transitions
    ∧ (classify_transition_marker
        ({ transition_index := 4, transition_name := none,
           permission_count := 1,
           permissions := [{ permission_index := 0,
                             permission_value := "PartPresent", comment := "" }] }
          : TransitionOut).transition_name = .error ()
      ∧ write_transitions_section
          (extract_transitions docNoMarker "EmStatesAndSequences_M" none)
          { input_count := 0, digital_inputs := [] }
          { routine_name := "EmStatesAndSequences_R2S", sequences := [] }
          { group_count := 0, actuator_groups := [] }
          { mapping_count := 0, valve_mappings := [] }
        = .error ()) :=
  ⟨by decide,
   C10_null_transition_name docNoMarker "EmStatesAndSequences_M" none
     { input_count := 0, digital_inputs := [] }
     { routine_name := "EmStatesAndSequences_R2S", sequences := [] }
     { group_count := 0, actuator_groups := [] }
     { mapping_count := 0, valve_mappings := [] }
     { transition_index := 4, transition_name := none, permission_count := 1,
       permissions := [{ permission_index := 0,
                         permission_value := "PartPresent", comment := "" }] }
     (by decide) rfl⟩

/-! ## C3 -/

theorem match_sequence_for_spec (seqs : List SequenceOut)
    (sbi : List (Nat × SequenceOut)) (i tidx : Nat) :
    (∀ s, alookup sbi tidx = some s →
      match_sequence_for seqs sbi i tidx = some s)
    ∧ (alookup sbi tidx = none → ∀ s, alookup sbi (tidx + 1) = some s →
      match_sequence_for seqs sbi i tidx = some s)
    ∧ (alookup sbi tidx = none → alookup sbi (tidx + 1) = none →
      match_sequence_for seqs sbi i tidx = seqs.get? i) := by
  refine ⟨?_, ?_, ?_⟩
  · intro s h
    rw [match_sequence_for, h]
  · intro h s h2
    rw [match_sequence_for, h, h2]
  · intro h h2
    rw [match_sequence_for, h, h2]

/-- A transition whose marker classifies emits its state-marker row, its
wait-condition rows and the correlated sequence's rows. -/
theorem transitionRowsFor_ok (style : String) (seqs : List SequenceOut)
    (sbi : List (Nat × SequenceOut)) (did : DigitalInputsData)
    (mdesc : List (String × String)) (mvalve : List (String × ValveInfo))
    (i : Nat) (t : TransitionOut) (km : String × String)
    (hk : classify_transition_marker t.transition_name = .ok km) :
    transitionRowsFor style seqs sbi did mdesc mvalve i t
      = .ok (stateMarkerRow style km.1 km.2 ::
          ((t.permissions.map (fun p =>
             expand_permission_to_wait_conditions p did)).flatten).map
            (waitCondRow style)
          ++ (match match_sequence_for seqs sbi i t.transition_index with
              | none => []
              | some sq =>
                seqTransStateRow style sq.sequence_name ::
                  sequenceActionRows style mdesc mvalve sq)) := by
  rw [transitionRowsFor, hk]
  rfl

/-- C3: a transitions section that writes successfully is the section header,
each transition's rows in order, and the end row; each transition correlates
to a sequence by identical index first, then index plus one, then ordinal
position, and when no strategy applies its sequence-state and action rows are
skipped while the state-marker and wait-condition rows are still emitted. -/
theorem C3_sequence_correlation (td : TransitionsData)
    (did : DigitalInputsData) (md : SequencesData)
    (agd : ActuatorGroupsData) (vmd : ValveMappingsData) (rows : List Row)
    (hne : td.transitions.isEmpty = false)
    (hok : write_transitions_section td did md agd vmd = .ok rows) :
    ∃ blocks,
      mapMEx (fun pe : Nat × TransitionOut =>
          transitionRowsFor (sequenceStyleOf md.routine_name) md.sequences
            (dictOf (md.sequences.map (fun s => (s.sequence_index, s)))) did
            (mmDescriptionDict agd) vmd.valve_mappings pe.1 pe.2)
        td.transitions.enum = .ok blocks
      ∧ rows = seqHeaderRow (sequenceStyleOf md.routine_name)
            (sequenceStyleOf md.routine_name ++ " Sequence")
          :: blocks.flatten
          ++ [seqHeaderRow (sequenceStyleOf md.routine_name) "End Of Sequence"]
      ∧ ∀ i t, (i, t) ∈ td.transitions.enum →
        ∃ km, classify_transition_marker t.transition_name = .ok km
        ∧ (∀ s, alookup (dictOf (md.sequences.map
              (fun s => (s.sequence_index, s)))) t.transition_index = some s →
            match_sequence_for md.sequences
              (dictOf (md.sequences.map (fun s => (s.sequence_index, s))))
              i t.transition_index = some s)
        ∧ (alookup (dictOf (md.sequences.map
              (fun s => (s.sequence_index, s)))) t.transition_index = none →
           ∀ s, alookup (dictOf (md.sequences.map
              (fun s => (s.sequence_index, s)))) (t.transition_index + 1)
              = some s →
            match_sequence_for md.sequences
              (dictOf (md.sequences.map (fun s => (s.sequence_index, s))))
              i t.transition_index = some s)
        ∧ (alookup (dictOf (md.sequences.map
              (fun s => (s.sequence_index, s)))) t.transition_index = none →
           alookup (dictOf (md.sequences.map
              (fun s => (s.sequence_index, s)))) (t.transition_index + 1)
              = none →
            match_sequence_for md.sequences
              (dictOf (md.sequences.map (fun s => (s.sequence_index, s))))
              i t.transition_index = md.sequences.get? i)
        ∧ (match_sequence_for md.sequences
              (dictOf (md.sequences.map (fun s => (s.sequence_index, s))))
              i t.transition_index = none →
            transitionRowsFor (sequenceStyleOf md.routine_name) md.sequences
              (dictOf (md.sequences.map (fun s => (s.sequence_index, s)))) did
              (mmDescriptionDict agd) vmd.valve_mappings i t
              = .ok (stateMarkerRow (sequenceStyleOf md.routine_name)
                    km.1 km.2 ::
                  ((t.permissions.map (fun p =>
                     expand_permission_to_wait_conditions p did)).flatten).map
                    (waitCondRow (sequenceStyleOf md.routine_name))))
        ∧ (∀ sq, match_sequence_for md.sequences
              (dictOf (md.sequences.map (fun s => (s.sequence_index, s))))
              i t.transition_index = some sq →
            transitionRowsFor (sequenceStyleOf md.routine_name) md.sequences
              (dictOf (md.sequences.map (fun s => (s.sequence_index, s)))) did
              (mmDescriptionDict agd) vmd.valve_mappings i t
              = .ok (stateMarkerRow (sequenceStyleOf md.routine_name)
                    km.1 km.2 ::
                  ((t.permissions.map (fun p =>
                     expand_permission_to_wait_conditions p did)).flatten).map
                    (waitCondRow (sequenceStyleOf md.routine_name))
                  ++ seqTransStateRow (sequenceStyleOf md.routine_name)
                      sq.sequence_name ::
                    sequenceActionRows (sequenceStyleOf md.routine_name)
                      (mmDescriptionDict agd) vmd.valve_mappings sq)) := by
  rw [write_transitions_section, if_neg (by simp [hne])] at hok
  simp only [] at hok
  have hsplit : ∃ blocks,
      mapMEx (fun pe : Nat × TransitionOut =>
          transitionRowsFor (sequenceStyleOf md.routine_name) md.sequences
            (dictOf (md.sequences.map (fun s => (s.sequence_index, s)))) did
            (mmDescriptionDict agd) vmd.valve_mappings pe.1 pe.2)
        td.transitions.enum = .ok blocks
      ∧ rows = seqHeaderRow (sequenceStyleOf md.routine_name)
            (sequenceStyleOf md.routine_name ++ " Sequence")
          :: blocks.flatten
          ++ [seqHeaderRow (sequenceStyleOf md.routine_name)
                "End Of Sequence"] := by
    cases hm : mapMEx (fun pe : Nat × TransitionOut =>
        transitionRowsFor (sequenceStyleOf md.routine_name) md.sequences
          (dictOf (md.sequences.map (fun s => (s.sequence_index, s)))) did
          (mmDescriptionDict agd) vmd.valve_mappings pe.1 pe.2)
        td.transitions.enum with
    | error e =>
      cases e
      rw [hm] at hok
      have hc : (Except.error () : Except Unit (List Row)) = .ok rows := hok
      cases hc
    | ok blocks =>
      rw [hm] at hok
      have hc : Except.ok (seqHeaderRow (sequenceStyleOf md.routine_name)
            (sequenceStyleOf md.routine_name ++ " Sequence")
          :: blocks.flatten
          ++ [seqHeaderRow (sequenceStyleOf md.routine_name)
                "End Of Sequence"]) = (Except.ok rows : Except Unit (List Row)) := hok
      cases hc
      exact ⟨blocks, rfl, rfl⟩
  obtain ⟨blocks, hm, hrows⟩ := hsplit
  refine ⟨blocks, hm, hrows, ?_⟩
  intro i t hit
  obtain ⟨y, hy⟩ := mapMEx_ok_forall_mem
    (fun pe : Nat × TransitionOut =>
      transitionRowsFor (sequenceStyleOf md.routine_name) md.sequences
        (dictOf (md.sequences.map (fun s => (s.sequence_index, s)))) did
        (mmDescriptionDict agd) vmd.valve_mappings pe.1 pe.2)
    td.transitions.enum blocks hm (i, t) hit
  have hy2 : transitionRowsFor (sequenceStyleOf md.routine_name) md.sequences
      (dictOf (md.sequences.map (fun s => (s.sequence_index, s)))) did
      (mmDescriptionDict agd) vmd.valve_mappings i t = .ok y := hy
  cases hcl : classify_transition_marker t.transition_name with
  | error e =>
    cases e
    rw [transitionRowsFor, hcl] at hy2
    have hc : (Except.error () : Except Unit (List Row)) = .ok y := hy2
    cases hc
  | ok km =>
    obtain ⟨hs1, hs2, hs3⟩ := match_sequence_for_spec md.sequences
      (dictOf (md.sequences.map (fun s => (s.sequence_index, s))))
      i t.transition_index
    refine ⟨km, rfl, hs1, hs2, hs3, ?_, ?_⟩
    · intro hmn
      rw [transitionRowsFor_ok (sequenceStyleOf md.routine_name) md.sequences
        (dictOf (md.sequences.map (fun s => (s.sequence_index, s)))) did
        (mmDescriptionDict agd) vmd.valve_mappings i t km hcl, hmn]
      simp
    · intro sq hms
      rw [transitionRowsFor_ok (sequenceStyleOf md.routine_name) md.sequences
        (dictOf (md.sequences.map (fun s => (s.sequence_index, s)))) did
        (mmDescriptionDict agd) vmd.valve_mappings i t km hcl, hms]

theorem C3_sequence_correlation_witness :
    c3td.transitions.isEmpty = false
    ∧ write_transitions_section c3td { input_count := 0, digital_inputs := [] }
        c3md { group_count := 0, actuator_groups := [] }
        { mapping_count := 0, valve_mappings := [] }
      = .ok [seqHeaderRow "R2S" "R2S Sequence",
             stateMarkerRow "R2S" "Transition State" "A",
             seqTransStateRow "R2S" (some "SeqOne"),
             stateMarkerRow "R2S" "Fixed State" "B",
             seqTransStateRow "R2S" (some "SeqTwo"),
             stateMarkerRow "R2S" "Fixed State" "C",
             seqHeaderRow "R2S" "End Of Sequence"]
    ∧ (∃ blocks,
      mapMEx (fun pe : Nat × TransitionOut =>
          transitionRowsFor (sequenceStyleOf c3md.routine_name) c3md.sequences
            (dictOf (c3md.sequences.map (fun s => (s.sequence_index, s))))
            { input_count := 0, digital_inputs := [] }
            (mmDescriptionDict { group_count := 0, actuator_groups := [] })
            ({ mapping_count := 0, valve_mappings := [] }
              : ValveMappingsData).valve_mappings pe.1 pe.2)
        c3td.transitions.enum = .ok blocks
      ∧ [seqHeaderRow "R2S" "R2S Sequence",
         stateMarkerRow "R2S" "Transition State" "A",
         seqTransStateRow "R2S" (some "SeqOne"),
         stateMarkerRow "R2S" "Fixed State" "B",
         seqTransStateRow "R2S" (some "SeqTwo"),
         stateMarkerRow "R2S" "Fixed State" "C",
         seqHeaderRow "R2S" "End Of Sequence"]
        = seqHeaderRow (sequenceStyleOf c3md.routine_name)
            (sequenceStyleOf c3md.routine_name ++ " Sequence")
          :: blocks.flatten
          ++ [seqHeaderRow (sequenceStyleOf c3md.routine_name)
                "End Of Sequence"]
      ∧ ∀ i t, (i, t) ∈ c3td.transitions.enum →
        ∃ km, classify_transition_marker t.transition_name = .ok km
        ∧ (∀ s, alookup (dictOf (c3md.sequences.map
              (fun s => (s.sequence_index, s)))) t.transition_index = some s →
            match_sequence_for c3md.sequences
              (dictOf (c3md.sequences.map (fun s => (s.sequence_index, s))))
              i t.transition_index = some s)
        ∧ (alookup (dictOf (c3md.sequences.map
              (fun s => (s.sequence_index, s)))) t.transition_index = none →
           ∀ s, alookup (dictOf (c3md.sequences.map
              (fun s => (s.sequence_index, s)))) (t.transition_index + 1)
              = some s →
            match_sequence_for c3md.sequences
              (dictOf (c3md.sequences.map (fun s => (s.sequence_index, s))))
              i t.transition_index = some s)
        ∧ (alookup (dictOf (c3md.sequences.map
              (fun s => (s.sequence_index, s)))) t.transition_index = none →
           alookup (dictOf (c3md.sequences.map
              (fun s => (s.sequence_index, s)))) (t.transition_index + 1)
              = none →
            match_sequence_for c3md.sequences
              (dictOf (c3md.sequences.map (fun s => (s.sequence_index, s))))
              i t.transition_index = c3md.sequences.get? i)
        ∧ (match_sequence_for c3md.sequences
              (dictOf (c3md.sequences.map (fun s => (s.sequence_index, s))))
              i t.transition_index = none →
            transitionRowsFor (sequenceStyleOf c3md.routine_name)
              c3md.sequences
              (dictOf (c3md.sequences.map (fun s => (s.sequence_index, s))))
              { input_count := 0, digital_inputs := [] }
              (mmDescriptionDict { group_count := 0, actuator_groups := [] })
              ({ mapping_count := 0, valve_mappings := [] }
                : ValveMappingsData).valve_mappings i t
              = .ok (stateMarkerRow (sequenceStyleOf c3md.routine_name)
                    km.1 km.2 ::
                  ((t.permissions.map (fun p =>
                     expand_permission_to_wait_conditions p
                       { input_count := 0,
                         digital_inputs := [] })).flatten).map
                    (waitCondRow (sequenceStyleOf c3md.routine_name))))
        ∧ (∀ sq, match_sequence_for c3md.sequences
              (dictOf (c3md.sequences.map (fun s => (s.sequence_index, s))))
              i t.transition_index = some sq →
            transitionRowsFor (sequenceStyleOf c3md.routine_name)
              c3md.sequences
              (dictOf (c3md.sequences.map (fun s => (s.sequence_index, s))))
              { input_count := 0, digital_inputs := [] }
              (mmDescriptionDict { group_count := 0, actuator_groups := [] })
              ({ mapping_count := 0, valve_mappings := [] }
                : ValveMappingsData).valve_mappings i t
              = .ok (stateMarkerRow (sequenceStyleOf c3md.routine_name)
                    km.1 km.2 ::
                  ((t.permissions.map (fun p =>
                     expand_permission_to_wait_conditions p
                       { input_count := 0,
                         digital_inputs := [] })).flatten).map
                    (waitCondRow (sequenceStyleOf c3md.routine_name))
                  ++ seqTransStateRow (sequenceStyleOf c3md.routine_name)
                      sq.sequence_name ::
                    sequenceActionRows (sequenceStyleOf c3md.routine_name)
                      (mmDescriptionDict
                        { group_count := 0, actuator_groups := [] })
                      ({ mapping_count := 0, valve_mappings := [] }
                        : ValveMappingsData).valve_mappings sq))) :=
  ⟨rfl, rfl,
   C3_sequence_correlation c3td { input_count := 0, digital_inputs := [] }
     c3md { group_count := 0, actuator_groups := [] }
     { mapping_count := 0, valve_mappings := [] }
     [seqHeaderRow "R2S" "R2S Sequence",
      stateMarkerRow "R2S" "Transition State" "A",
      seqTransStateRow "R2S" (some "SeqOne"),
      stateMarkerRow "R2S" "Fixed State" "B",
      seqTransStateRow "R2S" (some "SeqTwo"),
      stateMarkerRow "R2S" "Fixed State" "C",
      seqHeaderRow "R2S" "End Of Sequence"]
     rfl rfl⟩

end R2X
